import Mathlib

/-!
Shallow embedding of the multi-provider LLM benchmarking gateway
(the `server.js` of the LLM-Test repository).

The gateway fans one prompt out to three provider adapters (OpenAI,
Gemini, Azure Foundry), decodes each provider's SSE-style event stream,
accumulates delta text, records milestone timings, computes metrics, and
multiplexes results back to the client in completion order.

Modelling conventions:
* JavaScript numbers used for timings and token counts are modelled as `ℚ`;
  `Number(x.toFixed(2))` is modelled by `round2` (round half-up at two
  decimals).  The same rounding function is used on both sides of every
  comparison, so its exact tie behaviour never decides a claim.
* `JSON.parse` is abstracted as a parameter `parse : String → Option Json`
  (`none` = the parse threw and the frame is skipped); everything done with
  the parsed value is transcribed from the source.  Provider payload shapes
  are restricted to the `Json` type below: usage fields are numbers, text
  fields are strings, as the providers document; exotic JS values (a
  numeric `finish_reason`, a non-array `parts`, ...) are outside the
  modelled input space.
* JavaScript truthiness (`if (x)`, `x || y`) and nullish coalescing
  (`x ?? y`) are modelled explicitly by `jsTruthy`, `jsOrStr`, `nonNull`
  and `jsCoalesce`.
* The byte stream delivered by `fetch` is modelled as a list of already
  UTF-8 decoded chunks, each carrying the monotonic-clock elapsed value
  `performance.now() - start` observed when that read completed.  The
  `performance.now() - start` value taken at stream end is the separate
  input `totalMs` (and, for the Gemini flush block, `flushMs`).
* Network effects are made observable in the return value: the number of
  HTTP requests issued and (for Gemini) the JSON body of the non-streaming
  fallback request, so that "no network call" and "same payload" are
  provable statements.
-/


set_option linter.unusedVariables false

namespace LLMTest

/-! ## JSON values and JavaScript semantics helpers -/


/-- JSON values (the provider event payloads). -/
inductive Json where
  | null
  | bool (b : Bool)
  | num (q : ℚ)
  | str (s : String)
  | arr (items : List Json)
  | obj (fields : List (String × Json))

/-- Object field access, `j.k` on a parsed JSON object (first binding wins). -/
def Json.field? : Json → String → Option Json
  | .obj fs, k => (fs.find? (fun p => p.1 == k)).map (fun p => p.2)
  | _, _ => none

/-- Array index access, `j[i]`. -/
def Json.idx? : Json → ℕ → Option Json
  | .arr l, i => l[i]?
  | _, _ => none

/-- JavaScript truthiness of a JSON value. -/
def jsTruthy : Json → Bool
  | .null => false
  | .bool b => b
  | .num q => decide (q ≠ 0)
  | .str s => s != ""
  | .arr _ => true
  | .obj _ => true

/-- Collapse a JS `null` to "absent": models that both `undefined` and
`null` trigger `??`. -/
def nonNull : Option Json → Option Json
  | some .null => none
  | x => x

/-- JavaScript `a ?? b` (nullish coalescing) on optional JSON values. -/
def jsCoalesce (a b : Option Json) : Option Json :=
  match nonNull a with
  | some v => some v
  | none => b

/-- Optional chaining step `o?.k`. -/
def optField (o : Option Json) (k : String) : Option Json :=
  o.bind (fun j => j.field? k)

/-- Optional chaining step `o?.[i]`. -/
def optIdx (o : Option Json) (i : ℕ) : Option Json :=
  o.bind (fun j => j.idx? i)

/-- Read a numeric JSON field through `?.` / `??` chains: absent or `null`
gives `none`. -/
def jsNum? : Option Json → Option ℚ
  | some (.num q) => some q
  | _ => none

/-- Read a string JSON field: absent, `null` or non-string gives `none`. -/
def jsStr? : Option Json → Option String
  | some (.str s) => some s
  | _ => none

/-! ## JavaScript string helpers (structural, kernel-computable) -/


/-- Whitespace as used by `String.prototype.trim` and `/\s+/`
(restricted to the ASCII whitespace actually produced by providers). -/
def jsWhitespace (c : Char) : Bool := c.isWhitespace

/-- JavaScript `s.trim()`. -/
def jsTrim (s : String) : String :=
  ⟨((s.data.dropWhile jsWhitespace).reverse.dropWhile jsWhitespace).reverse⟩

/-- JavaScript `a || b` for strings: `a` when non-empty, else `b`. -/
def jsOrStr (a b : String) : String := if a = "" then b else a

/-- JavaScript `line.startsWith(p)`. -/
def jsStartsWith (s p : String) : Bool := p.data.isPrefixOf s.data

/-- `buffer.split(/\r?\n\r?\n/u)`: split on blank-line block separators.
The scanner consumes, at each position, the longest of the four concrete
separator shapes the regex can match there, exactly as the backtracking
regex does; a prefix of a separator at end of input is left in the final
part. -/
def splitFull : List Char → List (List Char)
  | '\r' :: '\n' :: '\r' :: '\n' :: rest => [] :: splitFull rest
  | '\r' :: '\n' :: '\n' :: rest => [] :: splitFull rest
  | '\n' :: '\r' :: '\n' :: rest => [] :: splitFull rest
  | '\n' :: '\n' :: rest => [] :: splitFull rest
  | c :: rest =>
    match splitFull rest with
    | p :: ps => (c :: p) :: ps
    | [] => [[c]]
  | [] => [[]]

/-- `remaining.split(/\r?\n/u)`: split into lines on `\r\n` or `\n`. -/
def splitCRLF : List Char → List (List Char)
  | '\r' :: '\n' :: rest => [] :: splitCRLF rest
  | '\n' :: rest => [] :: splitCRLF rest
  | c :: rest =>
    match splitCRLF rest with
    | p :: ps => (c :: p) :: ps
    | [] => [[c]]
  | [] => [[]]

/-- `part.split('\n')`: split on single newlines. -/
def splitNL : List Char → List (List Char)
  | '\n' :: rest => [] :: splitNL rest
  | c :: rest =>
    match splitNL rest with
    | p :: ps => (c :: p) :: ps
    | [] => [[c]]
  | [] => [[]]

/-- One complete SSE block to its `data:` payloads, per the loop body
`part.split('\n').map(trim).filter(Boolean)` followed by the
`startsWith('data:')` guard and `line.slice(5).trim()`. -/
def dataPayloads (part : List Char) : List String :=
  ((((splitNL part).map (fun l => jsTrim ⟨l⟩)).filter (fun l => l != "")).filterMap
    (fun line => if jsStartsWith line "data:" then some (jsTrim ⟨line.data.drop 5⟩) else none))

/-- The Gemini end-of-stream flush: `const remaining = buffer.trim();
if (remaining) { remaining.split(/\r?\n/u).map(trim).filter(Boolean) ... }`
reduced to the `data:` payloads it yields. -/
def flushPayloads (buf : List Char) : List String :=
  let remaining := jsTrim ⟨buf⟩
  if remaining = "" then []
  else
    ((((splitCRLF remaining.data).map (fun l => jsTrim ⟨l⟩)).filter (fun l => l != "")).filterMap
      (fun line => if jsStartsWith line "data:" then some (jsTrim ⟨line.data.drop 5⟩) else none))

/-! ## Metrics recorder -/


/-- `Number(x.toFixed(2))`: round to two decimal places. -/
def round2 (q : ℚ) : ℚ := (round (q * 100) : ℤ) / 100

/-- Count of maximal non-whitespace runs of a list of characters. -/
def wsWords : List Char → List (List Char)
  | [] => [[]]
  | c :: rest =>
    if jsWhitespace c then [] :: wsWords rest
    else
      match wsWords rest with
      | p :: ps => (c :: p) :: ps
      | [] => [[c]]

/-- `estimateVisibleTokens`: trim, and if non-empty count the
whitespace-separated words (`normalized.split(/\s+/u).length`; on a
trimmed non-empty string this is the number of maximal non-space runs). -/
def estimateVisibleTokens (text : String) : ℕ :=
  let normalized := jsTrim text
  if normalized = "" then 0
  else (((wsWords normalized.data).filter (fun w => w ≠ [])).length)

/-- JS numeric truthiness of a nullable number (`x && ...`). -/
def numTruthy : Option ℚ → Bool
  | some q => decide (q ≠ 0)
  | none => false

/-- `x ? f(x) : null` for a nullable number `x` (0 and null are falsy). -/
def truthyMap (o : Option ℚ) (f : ℚ → ℚ) : Option ℚ :=
  match o with
  | some t => if t = 0 then none else some (f t)
  | none => none

/-- The per-outcome metrics record streamed to the client.
`thinkingBudget` is a number for Gemini and a string for the
OpenAI-protocol adapters, hence `Json`. -/
structure Metrics where
  ttftMs : Option ℚ
  firstTokenMs : Option ℚ
  totalLatencyMs : ℚ
  postTtftLatencyMs : Option ℚ
  generationMs : Option ℚ
  tokensPerSecond : Option ℚ
  inputTokens : Option ℚ
  outputTokens : Option ℚ
  billedOutputTokens : Option ℚ
  finishReason : Option Json
  thinkingBudget : Json
  streamingEnabled : Bool

/-- Metrics tail of `callOpenAI` (source lines 341-365). -/
def openAIMetricsOf (usage : Option Json) (firstChunkMs firstTokenMs : Option ℚ)
    (totalMs : ℚ) (text : String) (finishReason : Option Json)
    (reasoningEffort : String) : Metrics :=
  let estimatedVisibleTokens : ℚ := (estimateVisibleTokens text : ℕ)
  let outputTextTokens : Option ℚ :=
    match jsNum? (optField (optField usage "output_tokens_details") "text_tokens") with
    | some q => some q
    | none => if estimatedVisibleTokens > 0 then some estimatedVisibleTokens else none
  let billedOutputTokens : Option ℚ :=
    match jsNum? (optField usage "output_tokens") with
    | some q => some q
    | none => outputTextTokens
  let tokensPerSecond : Option ℚ :=
    if numTruthy billedOutputTokens && decide (totalMs > 0) then
      billedOutputTokens.map (fun b => round2 (b / (totalMs / 1000)))
    else none
  { ttftMs := truthyMap firstChunkMs round2
    firstTokenMs := truthyMap firstTokenMs round2
    totalLatencyMs := round2 totalMs
    postTtftLatencyMs := truthyMap firstChunkMs (fun t => round2 (totalMs - t))
    generationMs := truthyMap firstTokenMs (fun t => round2 (totalMs - t))
    tokensPerSecond := tokensPerSecond
    inputTokens := jsNum? (optField usage "input_tokens")
    outputTokens := outputTextTokens
    billedOutputTokens := billedOutputTokens
    finishReason := some (finishReason.getD (Json.str "completed"))
    thinkingBudget := Json.str reasoningEffort
    streamingEnabled := true }

/-- Metrics tail of `callGemini` (source lines 513-538). -/
def geminiMetricsOf (usage : Option Json) (firstChunkMs firstTokenMs : Option ℚ)
    (totalMs : ℚ) (text : String) (finishReason : Option Json)
    (thinkingBudget : ℚ) (streamingEnabled : Bool) : Metrics :=
  let estimatedVisibleTokens : ℚ := (estimateVisibleTokens text : ℕ)
  let outputTokens : Option ℚ :=
    match jsNum? (optField usage "candidatesTokenCount") with
    | some q => some q
    | none => if estimatedVisibleTokens > 0 then some estimatedVisibleTokens else none
  let thinkingTokens : ℚ := (jsNum? (optField usage "thoughtsTokenCount")).getD 0
  let billedOutputTokens : Option ℚ := outputTokens.map (fun o => o + thinkingTokens)
  let tokensPerSecond : Option ℚ :=
    if numTruthy outputTokens && decide (totalMs > 0) then
      outputTokens.map (fun o => round2 (o / (totalMs / 1000)))
    else none
  { ttftMs := truthyMap firstChunkMs round2
    firstTokenMs := truthyMap firstTokenMs round2
    totalLatencyMs := round2 totalMs
    postTtftLatencyMs := truthyMap firstChunkMs (fun t => round2 (totalMs - t))
    generationMs := truthyMap firstTokenMs (fun t => round2 (totalMs - t))
    tokensPerSecond := tokensPerSecond
    inputTokens := jsNum? (optField usage "promptTokenCount")
    outputTokens := outputTokens
    billedOutputTokens := billedOutputTokens
    finishReason := finishReason
    thinkingBudget := Json.num thinkingBudget
    streamingEnabled := streamingEnabled }

/-- Metrics tail of `callAzureFoundry` (source lines 676-700). -/
def azureMetricsOf (usage : Option Json) (firstChunkMs firstTokenMs : Option ℚ)
    (totalMs : ℚ) (text : String) (finishReason : Option Json)
    (reasoningEffort : String) : Metrics :=
  let estimatedVisibleTokens : ℚ := (estimateVisibleTokens text : ℕ)
  let outputTokens : Option ℚ :=
    match jsNum? (optField usage "completion_tokens") with
    | some q => some q
    | none => if estimatedVisibleTokens > 0 then some estimatedVisibleTokens else none
  let billedOutputTokens : Option ℚ := outputTokens
  let tokensPerSecond : Option ℚ :=
    if numTruthy outputTokens && decide (totalMs > 0) then
      outputTokens.map (fun o => round2 (o / (totalMs / 1000)))
    else none
  { ttftMs := truthyMap firstChunkMs round2
    firstTokenMs := truthyMap firstTokenMs round2
    totalLatencyMs := round2 totalMs
    postTtftLatencyMs := truthyMap firstChunkMs (fun t => round2 (totalMs - t))
    generationMs := truthyMap firstTokenMs (fun t => round2 (totalMs - t))
    tokensPerSecond := tokensPerSecond
    inputTokens := jsNum? (optField usage "prompt_tokens")
    outputTokens := outputTokens
    billedOutputTokens := billedOutputTokens
    finishReason := some (finishReason.getD (Json.str "completed"))
    thinkingBudget := Json.str reasoningEffort
    streamingEnabled := true }

/-! ## Configuration -/


/-- `THINKING_PRESETS` (Gemini thinking budget). -/
def THINKING_PRESETS : List (String × ℚ) := [("off", 0), ("on", 1024)]

/-- `OPENAI_REASONING_PRESETS` (OpenAI / Azure reasoning effort). -/
def OPENAI_REASONING_PRESETS : List (String × String) := [("off", "none"), ("on", "medium")]

/-- JS object property lookup on the two-entry preset tables. -/
def lookupPreset {α : Type} (table : List (String × α)) (k : String) : Option α :=
  (table.find? (fun p => p.1 == k)).map (fun p => p.2)

/-- `getGeminiThinkingBudget`: `THINKING_PRESETS[mode] ?? THINKING_PRESETS.off`. -/
def getGeminiThinkingBudget (mode : String) : ℚ :=
  (lookupPreset THINKING_PRESETS mode).getD 0

/-- `OPENAI_REASONING_PRESETS[thinkingMode] ?? OPENAI_REASONING_PRESETS.off`. -/
def openaiReasoningEffort (mode : String) : String :=
  (lookupPreset OPENAI_REASONING_PRESETS mode).getD "none"

/-- The environment variables the gateway reads (`none` = unset). -/
structure Env where
  OPENAI_API_KEY : Option String
  GEMINI_API_KEY : Option String
  AZURE_FOUNDRY_ENDPOINT : Option String
  AZURE_FOUNDRY_API_KEY : Option String
  AZURE_FOUNDRY_DEPLOYMENT : Option String
  AZURE_FOUNDRY_API_VERSION : Option String
  OPENAI_MODEL : Option String
  GEMINI_MODEL : Option String
  AZURE_FOUNDRY_MODEL : Option String

/-- JS truthiness of an env var (`if (!apiKey) throw`): unset and empty
string are both falsy. -/
def envTruthy (v : Option String) : Option String :=
  v.bind (fun s => if s = "" then none else some s)

/-- `process.env.X || dflt`. -/
def envOr (v : Option String) (dflt : String) : String :=
  (envTruthy v).getD dflt

/-- One entry of `MODEL_OPTIONS`. -/
structure ModelOption where
  provider : String
  model : String

/-- `MODEL_OPTIONS`: the statically configured provider table (object keys
equal the provider ids). -/
def MODEL_OPTIONS (env : Env) : List ModelOption :=
  [ ⟨"openai", envOr env.OPENAI_MODEL "gpt-5.2"⟩,
    ⟨"gemini", envOr env.GEMINI_MODEL "gemini-3-flash"⟩,
    ⟨"azure_foundry", envOr env.AZURE_FOUNDRY_MODEL "gpt-5.2"⟩ ]

/-- ASCII upper-casing (`provider.toUpperCase()`). -/
def toUpper (s : String) : String := ⟨s.data.map Char.toUpper⟩

/-- One entry of the `/api/models` discovery response. -/
structure ModelListing where
  id : String
  label : String
deriving DecidableEq

/-- The `GET /api/models` discovery operation:
`Object.entries(MODEL_OPTIONS).map(([id, meta]) => ({id, label}))`. -/
def apiModels (env : Env) : List ModelListing :=
  (MODEL_OPTIONS env).map
    (fun meta => ⟨meta.provider, toUpper meta.provider ++ " · " ++ meta.model⟩)

/-! ## Stream decoding state and provider adapters -/


/-- A progress event (`onProgress` callback payload). -/
structure ProgressEvent where
  provider : String
  model : String
  stage : String
  elapsedMs : ℚ
  message : String
deriving DecidableEq

/-- One `reader.read()` delivery: the decoded text chunk together with the
`performance.now() - start` value observed in that loop iteration. -/
structure Chunk where
  elapsed : ℚ
  data : String

/-- The upstream `fetch` response as the adapter observes it. -/
structure Upstream where
  ok : Bool
  status : ℕ
  bodyText : String
  hasBody : Bool
  chunks : List Chunk

/-- The mutable locals of an adapter's streaming loop, plus the progress
events emitted so far. -/
structure StreamAcc where
  buffer : List Char
  text : String
  firstChunkMs : Option ℚ
  firstTokenMs : Option ℚ
  usage : Option Json
  finishReason : Option Json
  progress : List ProgressEvent

/-- Initial loop state (`buffer = '', text = '', ... = null`). -/
def initAcc : StreamAcc := ⟨[], "", none, none, none, none, []⟩

/-- Build a progress event. -/
def mkProgress (provider model stage : String) (elapsed : ℚ) (message : String) :
    ProgressEvent :=
  ⟨provider, model, stage, elapsed, message⟩

/-- `event.type` when it is a string. -/
def jsType (ev : Json) : Option String := jsStr? (ev.field? "type")

/-- `event?.candidates?.[0]?.content?.parts?.map(p => typeof p?.text ===
'string' ? p.text : '').join('') || ''` (Gemini delta text; also used by
the non-streaming fallback). -/
def geminiChunkTextOf (event : Json) : String :=
  match optField (optField (optIdx (event.field? "candidates") 0) "content") "parts" with
  | some (.arr parts) =>
    String.join (parts.map (fun p =>
      match p.field? "text" with
      | some (.str t) => t
      | _ => ""))
  | _ => ""

/-- First statement group of the OpenAI per-event handler (source lines
302-314): on a `response.output_text.delta` event with a string delta,
record `firstToken` on the first one and append the delta. -/
def openAIDeltaPart (model : String) (elapsed : ℚ) (event : Json) (st : StreamAcc) :
    StreamAcc :=
  match jsType event, event.field? "delta" with
  | some "response.output_text.delta", some (.str d) =>
    let st :=
      if st.firstTokenMs.isNone then
        { st with firstTokenMs := some elapsed,
                  progress := st.progress ++
                    [mkProgress "openai" model "first_token" (round2 elapsed)
                      "Erstes sichtbares Token"] }
      else st
    { st with text := st.text ++ d }
  | _, _ => st

/-- Second statement group (source lines 316-319): `response.output_item.done`
updates the finish reason from `item.finish_reason ?? item.status` when
truthy. -/
def openAIItemDonePart (event : Json) (st : StreamAcc) : StreamAcc :=
  if jsType event == some "response.output_item.done" then
    match jsCoalesce (optField (event.field? "item") "finish_reason")
                     (optField (event.field? "item") "status") with
    | some r => if jsTruthy r then { st with finishReason := some r } else st
    | none => st
  else st

/-- Third statement group (source lines 321-325): `response.completed`
overwrites usage with `response.usage ?? null`, updates the finish reason
from `response.status`, and injects `response.output_text` when no text was
accumulated. -/
def openAICompletedPart (event : Json) (st : StreamAcc) : StreamAcc :=
  if jsType event == some "response.completed" then
    let st := { st with usage := nonNull (optField (event.field? "response") "usage") }
    let st :=
      { st with finishReason :=
          jsCoalesce (optField (event.field? "response") "status") st.finishReason }
    match jsStr? (optField (event.field? "response") "output_text") with
    | some t => if st.text == "" && t != "" then { st with text := t } else st
    | none => st
  else st

/-- The body of the OpenAI per-payload loop (source lines 296-328):
skip `[DONE]`, parse, then run the three statement groups in order.
A parse failure (`none`) leaves the state untouched. -/
def openAIPayloadStep (parse : String → Option Json) (model : String) (elapsed : ℚ)
    (st : StreamAcc) (payload : String) : StreamAcc :=
  if payload == "[DONE]" then st
  else
    match parse payload with
    | none => st
    | some event =>
      openAICompletedPart event (openAIItemDonePart event (openAIDeltaPart model elapsed event st))

/-- The body of the Gemini per-payload loop (source lines 428-454, repeated
verbatim in the flush block 464-490): skip empty payloads, parse, extract
delta text, usage (`usageMetadata`) and finish reason. -/
def geminiDeltaPart (model : String) (elapsed : ℚ) (event : Json) (st : StreamAcc) :
    StreamAcc :=
  let chunkText := geminiChunkTextOf event
  if chunkText != "" then
    let st :=
      if st.firstTokenMs.isNone then
        { st with firstTokenMs := some elapsed,
                  progress := st.progress ++
                    [mkProgress "gemini" model "first_token" (round2 elapsed)
                      "Erstes sichtbares Token"] }
      else st
    { st with text := st.text ++ chunkText }
  else st

def geminiUsagePart (event : Json) (st : StreamAcc) : StreamAcc :=
  match event.field? "usageMetadata" with
  | some u => if jsTruthy u then { st with usage := some u } else st
  | none => st

def geminiFinishPart (event : Json) (st : StreamAcc) : StreamAcc :=
  match optField (optIdx (event.field? "candidates") 0) "finishReason" with
  | some r => if jsTruthy r then { st with finishReason := some r } else st
  | none => st

def geminiPayloadStep (parse : String → Option Json) (model : String) (elapsed : ℚ)
    (st : StreamAcc) (payload : String) : StreamAcc :=
  if payload == "" then st
  else
    match parse payload with
    | none => st
    | some event =>
      geminiFinishPart event (geminiUsagePart event (geminiDeltaPart model elapsed event st))

/-- The body of the Azure Foundry per-payload loop (source lines 638-662):
skip empty and `[DONE]` payloads, parse, extract `choices[0].delta.content`
(only when a non-empty string), `usage`, and `choices[0].finish_reason`. -/
def azureDeltaPart (model : String) (elapsed : ℚ) (event : Json) (st : StreamAcc) :
    StreamAcc :=
  match jsStr? (optField (optField (optIdx (event.field? "choices") 0) "delta")
                  "content") with
  | some d =>
    if d != "" then
      let st :=
        if st.firstTokenMs.isNone then
          { st with firstTokenMs := some elapsed,
                    progress := st.progress ++
                      [mkProgress "azure_foundry" model "first_token" (round2 elapsed)
                        "Erstes sichtbares Token"] }
        else st
      { st with text := st.text ++ d }
    else st
  | none => st

def azureUsagePart (event : Json) (st : StreamAcc) : StreamAcc :=
  match event.field? "usage" with
  | some u => if jsTruthy u then { st with usage := some u } else st
  | none => st

def azureFinishPart (event : Json) (st : StreamAcc) : StreamAcc :=
  match optField (optIdx (event.field? "choices") 0) "finish_reason" with
  | some r => if jsTruthy r then { st with finishReason := some r } else st
  | none => st

def azurePayloadStep (parse : String → Option Json) (model : String) (elapsed : ℚ)
    (st : StreamAcc) (payload : String) : StreamAcc :=
  if payload == "" || payload == "[DONE]" then st
  else
    match parse payload with
    | none => st
    | some event =>
      azureFinishPart event (azureUsagePart event (azureDeltaPart model elapsed event st))

/-- `if (firstChunkMs === null) { firstChunkMs = ...; onProgress(connected) }`
at the top of every read iteration. -/
def connectedUpdate (provider model : String) (st : StreamAcc) (ch : Chunk) :
    StreamAcc :=
  if st.firstChunkMs.isNone then
    { st with firstChunkMs := some ch.elapsed,
              progress := st.progress ++
                [mkProgress provider model "connected" (round2 ch.elapsed)
                  "Erster Streaming-Chunk eingetroffen"] }
  else st

/-- One `reader.read()` iteration, shared verbatim by all three adapters:
record `connected` on the first chunk, append to the buffer, split off the
complete blank-line-separated blocks (keeping the trailing partial block
buffered), and run the per-payload loop on every `data:` payload of the
complete blocks. -/
def chunkStep (provider model : String)
    (payloadStep : ℚ → StreamAcc → String → StreamAcc)
    (st : StreamAcc) (ch : Chunk) : StreamAcc :=
  let st := connectedUpdate provider model st ch
  let parts := splitFull (st.buffer ++ ch.data.data)
  let st := { st with buffer := parts.getLastD [] }
  parts.dropLast.foldl
    (fun s part => (dataPayloads part).foldl (payloadStep ch.elapsed) s) st

/-- The whole OpenAI streaming loop (`while (true) { ... }`). -/
def openAIStreamCore (parse : String → Option Json) (model : String) (up : Upstream) :
    StreamAcc :=
  up.chunks.foldl (chunkStep "openai" model (openAIPayloadStep parse model)) initAcc

/-- The whole Gemini streaming loop. -/
def geminiStreamCore (parse : String → Option Json) (model : String) (up : Upstream) :
    StreamAcc :=
  up.chunks.foldl (chunkStep "gemini" model (geminiPayloadStep parse model)) initAcc

/-- The whole Azure Foundry streaming loop. -/
def azureStreamCore (parse : String → Option Json) (model : String) (up : Upstream) :
    StreamAcc :=
  up.chunks.foldl (chunkStep "azure_foundry" model (azurePayloadStep parse model)) initAcc

/-- The Gemini end-of-stream flush (source lines 459-492): the remaining
buffered partial block is parsed as a final block; `flushMs` is the
`performance.now() - start` value at that moment. -/
def geminiFlush (parse : String → Option Json) (model : String) (flushMs : ℚ)
    (st : StreamAcc) : StreamAcc :=
  (flushPayloads st.buffer).foldl (geminiPayloadStep parse model flushMs) st

/-- What a successful `callX` returns. -/
structure CallResult where
  text : String
  metrics : Metrics

/-- The observable behaviour of one adapter invocation: progress events
emitted, number of HTTP requests issued, the JSON body of the non-streaming
fallback request when one was issued, and the result (`Except.error` models
a thrown `Error` with that message). -/
structure AdapterRun where
  progress : List ProgressEvent
  httpRequests : ℕ
  fallbackRequest : Option Json
  result : Except String CallResult

/-- `callOpenAI` (source lines 240-366): credential precondition, streaming
request, decode loop, `completed` progress, metrics. -/
def callOpenAI (parse : String → Option Json) (env : Env) (model : String)
    (thinkingMode : String) (up : Upstream) (totalMs : ℚ) : AdapterRun :=
  match envTruthy env.OPENAI_API_KEY with
  | none =>
    { progress := [], httpRequests := 0, fallbackRequest := none,
      result := .error "OPENAI_API_KEY is not configured." }
  | some _ =>
    let reasoningEffort := openaiReasoningEffort thinkingMode
    if up.ok && up.hasBody then
      let acc := openAIStreamCore parse model up
      { progress := acc.progress ++
          [mkProgress "openai" model "completed" (round2 totalMs) "Antwort vollständig"],
        httpRequests := 1, fallbackRequest := none,
        result := .ok
          { text := jsOrStr (jsTrim acc.text) "[No text returned]",
            metrics := openAIMetricsOf acc.usage acc.firstChunkMs acc.firstTokenMs totalMs
              acc.text acc.finishReason reasoningEffort } }
    else
      { progress := [], httpRequests := 1, fallbackRequest := none,
        result := .error ("OpenAI request failed: " ++ toString up.status ++ " " ++ up.bodyText) }

/-- The JSON request body `callGemini` sends, and re-sends unchanged for the
non-streaming fallback. -/
def geminiRequestBody (prompt : String) (thinkingBudget : ℚ) : Json :=
  .obj [("contents", .arr [.obj [("role", .str "user"),
                                 ("parts", .arr [.obj [("text", .str prompt)]])]]),
        ("generationConfig", .obj [("thinkingConfig",
          .obj [("thinkingBudget", .num thinkingBudget)])])]

/-- The `fetch` response of the non-streaming fallback endpoint
(`response.json()` as a `Json` value). -/
structure FallbackUpstream where
  ok : Bool
  payload : Json

/-- What `callGeminiNonStreaming` returns. -/
structure GeminiFallbackResult where
  text : String
  usage : Option Json
  finishReason : Option Json

/-- `callGeminiNonStreaming` (source lines 541-565). -/
def callGeminiNonStreaming (fup : FallbackUpstream) : GeminiFallbackResult :=
  if !fup.ok then { text := "", usage := none, finishReason := none }
  else
    { text := jsTrim (geminiChunkTextOf fup.payload),
      usage := nonNull (fup.payload.field? "usageMetadata"),
      finishReason :=
        nonNull (optField (optIdx (fup.payload.field? "candidates") 0) "finishReason") }

/-- `callGemini` (source lines 368-539): credential precondition, streaming
request, decode loop, trailing-block flush, `completed` progress,
empty-text fallback to the non-streaming endpoint, metrics. -/
def callGemini (parse : String → Option Json) (env : Env) (model prompt : String)
    (thinkingMode : String) (up : Upstream) (flushMs totalMs : ℚ)
    (fup : FallbackUpstream) : AdapterRun :=
  match envTruthy env.GEMINI_API_KEY with
  | none =>
    { progress := [], httpRequests := 0, fallbackRequest := none,
      result := .error "GEMINI_API_KEY is not configured." }
  | some _ =>
    let thinkingBudget := getGeminiThinkingBudget thinkingMode
    let requestBody := geminiRequestBody prompt thinkingBudget
    if up.ok && up.hasBody then
      let acc := geminiFlush parse model flushMs (geminiStreamCore parse model up)
      let fallbackNeeded := jsTrim acc.text == ""
      let fb := callGeminiNonStreaming fup
      let adopt := fallbackNeeded && fb.text != ""
      let text := if adopt then fb.text else acc.text
      let usage := if adopt then jsCoalesce fb.usage acc.usage else acc.usage
      let finishReason :=
        if adopt then jsCoalesce fb.finishReason acc.finishReason else acc.finishReason
      let streamingEnabled := !adopt
      { progress := acc.progress ++
          [mkProgress "gemini" model "completed" (round2 totalMs) "Antwort vollständig"],
        httpRequests := if fallbackNeeded then 2 else 1,
        fallbackRequest := if fallbackNeeded then some requestBody else none,
        result := .ok
          { text := jsOrStr (jsTrim text) "[No text returned]",
            metrics := geminiMetricsOf usage acc.firstChunkMs acc.firstTokenMs totalMs
              text finishReason thinkingBudget streamingEnabled } }
    else
      { progress := [], httpRequests := 1, fallbackRequest := none,
        result := .error ("Gemini request failed: " ++ toString up.status ++ " " ++ up.bodyText) }

/-- `callAzureFoundry` (source lines 567-701): three credential
preconditions checked in order, streaming request, decode loop, `completed`
progress, metrics. -/
def callAzureFoundry (parse : String → Option Json) (env : Env) (model : String)
    (thinkingMode : String) (up : Upstream) (totalMs : ℚ) : AdapterRun :=
  match envTruthy env.AZURE_FOUNDRY_ENDPOINT with
  | none =>
    { progress := [], httpRequests := 0, fallbackRequest := none,
      result := .error "AZURE_FOUNDRY_ENDPOINT is not configured." }
  | some _ =>
  match envTruthy env.AZURE_FOUNDRY_API_KEY with
  | none =>
    { progress := [], httpRequests := 0, fallbackRequest := none,
      result := .error "AZURE_FOUNDRY_API_KEY is not configured." }
  | some _ =>
  match envTruthy env.AZURE_FOUNDRY_DEPLOYMENT with
  | none =>
    { progress := [], httpRequests := 0, fallbackRequest := none,
      result := .error "AZURE_FOUNDRY_DEPLOYMENT is not configured." }
  | some _ =>
    let reasoningEffort := openaiReasoningEffort thinkingMode
    if up.ok && up.hasBody then
      let acc := azureStreamCore parse model up
      { progress := acc.progress ++
          [mkProgress "azure_foundry" model "completed" (round2 totalMs)
            "Antwort vollständig"],
        httpRequests := 1, fallbackRequest := none,
        result := .ok
          { text := jsOrStr (jsTrim acc.text) "[No text returned]",
            metrics := azureMetricsOf acc.usage acc.firstChunkMs acc.firstTokenMs totalMs
              acc.text acc.finishReason reasoningEffort } }
    else
      { progress := [], httpRequests := 1, fallbackRequest := none,
        result := .error ("Azure Foundry request failed: " ++ toString up.status ++ " "
          ++ up.bodyText) }

/-! ## Orchestration -/


/-- The `ProviderOutcome` streamed to the client as a result event.  In the
source a success outcome simply lacks the `error` field; `error = false`
models that. -/
structure Outcome where
  provider : String
  model : String
  response : String
  metrics : Option Metrics
  error : Bool

/-- `runProviderRequest` (source lines 191-218): emit `started`, run the
model call, convert a thrown error into an error outcome with
`metrics = null`. -/
def runProviderRequest (selected : ModelOption) (run : AdapterRun) :
    List ProgressEvent × Outcome :=
  let startedEv := mkProgress selected.provider selected.model "started" 0 "Request gestartet"
  match run.result with
  | .ok r =>
    (startedEv :: run.progress,
     ⟨selected.provider, selected.model, r.text, some r.metrics, false⟩)
  | .error e =>
    (startedEv :: run.progress,
     ⟨selected.provider, selected.model, "Fehler: " ++ e, none, true⟩)

/-- One launched provider task as the fan-out loop sees it: the instant
(abstract, totally ordered) at which its promise settles, and the outcome
it settles with.  `runProviderRequest` never rejects, so settling always
yields an outcome. -/
structure RaceTask where
  settleAt : ℕ
  outcome : Outcome

/-- An event written to the NDJSON response by `streamChatResults` itself
(progress events are written by the adapters' callbacks and interleave
with these). -/
inductive StreamEvent where
  | result (outcome : Outcome)
  | done

/-- `Promise.race(pending.map(...))` followed by `pending.splice(winner.index, 1)`:
select the earliest-settling task (ties go to the earlier index, as for
already-settled promises) and return it with the remaining tasks in order. -/
def raceSelect : RaceTask → List RaceTask → RaceTask × List RaceTask
  | t, [] => (t, [])
  | t, u :: rest =>
    let p := raceSelect u rest
    if t.settleAt ≤ p.1.settleAt then (t, u :: rest) else (p.1, t :: p.2)

/-- The `while (pending.length > 0)` loop of `streamChatResults` (source
lines 178-187): repeatedly race the pending tasks, write the winner's
result event, and finish with the `done` event. -/
def streamChat : List RaceTask → List StreamEvent
  | [] => [.done]
  | t :: ts =>
    let p := raceSelect t ts
    .result p.1.outcome :: streamChat p.2
termination_by l => l.length
decreasing_by
  have hlen : ∀ (t : RaceTask) (ts : List RaceTask),
      (raceSelect t ts).2.length = ts.length := by
    intro t ts
    induction ts generalizing t with
    | nil => simp [raceSelect]
    | cons u rest ih =>
      simp only [raceSelect]
      split
      · simp
      · simpa using ih u
  simp only [hlen, List.length_cons]
  omega

/-- The fan-out of `streamChatResults` (source lines 164-189) restricted to
the events it writes itself: one task per `MODEL_OPTIONS` entry, each
settling at `sched o` with the outcome `runProviderRequest` produces from
the adapter behaviour `adapterOf o`. -/
def streamChatResults (env : Env) (sched : ModelOption → ℕ)
    (adapterOf : ModelOption → AdapterRun) : List StreamEvent :=
  streamChat ((MODEL_OPTIONS env).map
    (fun o => ⟨sched o, (runProviderRequest o (adapterOf o)).2⟩))

/-! ## Derived decode pipeline (used to state the stream-decoder claims) -/


/-- The `data:` payloads the buffering decoder emits for one chunk, and the
new buffer. -/
def decodeChunkFrames (buf : List Char) (data : String) : List String × List Char :=
  let parts := splitFull (buf ++ data.data)
  (((parts.dropLast).map dataPayloads).flatten, parts.getLastD [])

/-- All `data:` payloads the buffering decoder emits over a whole stream,
in arrival order, with the final (undecoded) buffer. -/
def decodeFrames : List Char → List Chunk → List String × List Char
  | buf, [] => ([], buf)
  | buf, ch :: rest =>
    let p := decodeChunkFrames buf ch.data
    let q := decodeFrames p.2 rest
    (p.1 ++ q.1, q.2)

/-- The delta text a single OpenAI frame contributes (`none` for `[DONE]`,
unparseable frames, and frames that are not string-delta events). -/
def openAIDelta (parse : String → Option Json) (payload : String) : Option String :=
  if payload == "[DONE]" then none
  else
    (parse payload).bind (fun event =>
      match jsType event, event.field? "delta" with
      | some "response.output_text.delta", some (.str d) => some d
      | _, _ => none)

/-- The non-empty `output_text` a `response.completed` OpenAI frame would
inject when no text has been accumulated yet. -/
def openAICompletedInject (parse : String → Option Json) (payload : String) :
    Option String :=
  if payload == "[DONE]" then none
  else
    (parse payload).bind (fun event =>
      if jsType event == some "response.completed" then
        match jsStr? (optField (event.field? "response") "output_text") with
        | some t => if t != "" then some t else none
        | none => none
      else none)

/-- The delta text a single Gemini frame contributes. -/
def geminiDelta (parse : String → Option Json) (payload : String) : Option String :=
  if payload == "" then none
  else
    (parse payload).bind (fun event =>
      let t := geminiChunkTextOf event
      if t != "" then some t else none)

/-- How one OpenAI frame transforms the accumulated text (delta append,
then `response.completed` injection into still-empty text). -/
def openAITextStep (parse : String → Option Json) (txt : String) (payload : String) :
    String :=
  if payload == "[DONE]" then txt
  else
    match parse payload with
    | none => txt
    | some event =>
      let txt :=
        match jsType event, event.field? "delta" with
        | some "response.output_text.delta", some (.str d) => txt ++ d
        | _, _ => txt
      if jsType event == some "response.completed" then
        match jsStr? (optField (event.field? "response") "output_text") with
        | some t => if txt == "" && t != "" then t else txt
        | none => txt
      else txt

/-- How one Gemini frame transforms the accumulated text. -/
def geminiTextStep (parse : String → Option Json) (txt : String) (payload : String) :
    String :=
  txt ++ (geminiDelta parse payload).getD ""

/-- How one OpenAI frame transforms the stored usage (`response.completed`
overwrites it with `response.usage ?? null`, even when that is null). -/
def openAIUsageStep (parse : String → Option Json) (u : Option Json) (payload : String) :
    Option Json :=
  if payload == "[DONE]" then u
  else
    match parse payload with
    | none => u
    | some event =>
      if jsType event == some "response.completed" then
        nonNull (optField (event.field? "response") "usage")
      else u

/-- How one Gemini frame transforms the stored usage (truthy
`usageMetadata` wins, last value wins). -/
def geminiUsageStep (parse : String → Option Json) (u : Option Json) (payload : String) :
    Option Json :=
  if payload == "" then u
  else
    match parse payload with
    | none => u
    | some event =>
      match event.field? "usageMetadata" with
      | some x => if jsTruthy x then some x else u
      | none => u

/-- How one Azure Foundry frame transforms the stored usage. -/
def azureUsageStep (parse : String → Option Json) (u : Option Json) (payload : String) :
    Option Json :=
  if payload == "" || payload == "[DONE]" then u
  else
    match parse payload with
    | none => u
    | some event =>
      match event.field? "usage" with
      | some x => if jsTruthy x then some x else u
      | none => u

/-! ## Projection lemmas: the adapter loop refines the frame pipeline -/


/-! ## Concrete instantiations and derived definitions used by the claims -/

/-- Concatenation of a list of strings. -/
def strConcat : List String → String
  | [] => ""
  | s :: rest => s ++ strConcat rest

/-- An environment with nothing configured. -/
def emptyEnv : Env := ⟨none, none, none, none, none, none, none, none, none⟩

/-- A parse function that fails on every frame (models `JSON.parse`
throwing); used by concrete instantiations. -/
def parseNone : String → Option Json := fun _ => none

/-- An upstream response with no chunks. -/
def upEmpty : Upstream := ⟨true, 200, "", true, []⟩

/-- Modelled from the spec's words (§3, §8): "`tokensPerSecond` is null
whenever `billedOutputTokens` is null/zero or `totalLatencyMs` is zero;
otherwise equals `billedOutputTokens / (totalLatencyMs/1000)` rounded to 2
decimal places", as a function of the tokens operand and the raw duration. -/
def specTokensPerSecond (tokens : Option ℚ) (durationMs : ℚ) : Option ℚ :=
  match tokens with
  | none => none
  | some b => if b = 0 ∨ durationMs = 0 then none else some (round2 (b / (durationMs / 1000)))

/-- The usage object of the concrete Gemini counterexample run: ten
candidate tokens plus five thinking tokens. -/
def cexGeminiUsage : Json :=
  .obj [("candidatesTokenCount", .num 10), ("thoughtsTokenCount", .num 5)]

/-- A parse function for the Gemini counterexample: the single frame `U`
carries text and the usage metadata above. -/
def cexGeminiParse : String → Option Json := fun s =>
  if s == "U" then
    some (.obj [("candidates", .arr [.obj [("content",
            .obj [("parts", .arr [.obj [("text", .str "hello world")]])])]]),
          ("usageMetadata", cexGeminiUsage)])
  else none

/-- An environment in which only the Gemini key is configured. -/
def geminiOnlyEnv : Env :=
  ⟨none, some "gk", none, none, none, none, none, none, none⟩

/-- The concrete Gemini run of the C3 counterexample: one streamed frame
with text and usage, total latency 1000 ms. -/
def cexGeminiRun : AdapterRun :=
  callGemini cexGeminiParse geminiOnlyEnv "gemini-3-flash" "p" "off"
    ⟨true, 200, "", true, [⟨5, "data: U\n\n"⟩]⟩ 900 1000 ⟨false, .null⟩

/-- The metrics of that run (error side never taken). -/
def cexGeminiMetrics : Metrics :=
  match cexGeminiRun.result with
  | .ok r => r.metrics
  | .error _ => azureMetricsOf none none none 0 "" none ""

/-- The accumulated Gemini text after flush and fallback adoption (the
value the `text.trim() || '[No text returned]'` line sees). -/
def geminiAdoptedText (parse : String → Option Json) (model : String) (up : Upstream)
    (flushMs : ℚ) (fup : FallbackUpstream) : String :=
  let acc := geminiFlush parse model flushMs (geminiStreamCore parse model up)
  let fb := callGeminiNonStreaming fup
  if (jsTrim acc.text == "") && (fb.text != "") then fb.text else acc.text

/-- Parse function for the C5 counterexample: two delta frames. -/
def cexC5Parse : String → Option Json := fun s =>
  if s == "D1" then
    some (.obj [("type", .str "response.output_text.delta"), ("delta", .str "ok")])
  else if s == "T" then
    some (.obj [("type", .str "response.output_text.delta"), ("delta", .str "hi")])
  else none

/-- A stream whose final block (`data: T`, carrying the delta `hi`) is never
terminated by a blank line, so it is still buffered when the stream ends. -/
def cexC5Up : Upstream := ⟨true, 200, "", true, [⟨1, "data: D1\n\ndata: T"⟩]⟩

/-- Parse function for the C7 counterexample: one `response.completed`
frame carrying `output_text` but no delta frames at all. -/
def cexC7Parse : String → Option Json := fun s =>
  if s == "CMP" then
    some (.obj [("type", .str "response.completed"),
                ("response", .obj [("output_text", .str "hello")])])
  else none

/-- A stream delivering only that completed frame. -/
def cexC7Up : Upstream := ⟨true, 200, "", true, [⟨1, "data: CMP\n\n"⟩]⟩

/-- Parse function for the C7 witness: one well-formed delta frame; `bad`
fails to parse. -/
def witC7Parse : String → Option Json := fun s =>
  if s == "W" then
    some (.obj [("type", .str "response.output_text.delta"), ("delta", .str "ok")])
  else none

/-- A stream interleaving a malformed frame with the valid delta frame. -/
def witC7Up : Upstream := ⟨true, 200, "", true, [⟨1, "data: bad\n\ndata: W\n\n"⟩]⟩

/-- No leading character satisfying `p`. -/
def headOk (p : Char → Bool) : List Char → Prop
  | [] => True
  | c :: _ => p c = false

/-- Trim trailing characters satisfying `p`. -/
def backTrim (p : Char → Bool) (l : List Char) : List Char :=
  (l.reverse.dropWhile p).reverse

/-- Parse function for the C4 counterexample: one frame whose delta text is
a single space — non-empty, so it sets `firstTokenMs`, yet whitespace-only,
so the fallback triggers. -/
def cexC4Parse : String → Option Json := fun s =>
  if s == "WS" then
    some (.obj [("candidates", .arr [.obj [("content",
      .obj [("parts", .arr [.obj [("text", .str " ")]])])]])])
  else none

def cexC4Up : Upstream := ⟨true, 200, "", true, [⟨5, "data: WS\n\n"⟩]⟩

def cexC4Fup : FallbackUpstream :=
  ⟨true, .obj [("candidates", .arr [.obj [("content",
    .obj [("parts", .arr [.obj [("text", .str "hi")]])])]])]⟩

def cexC4Run : AdapterRun :=
  callGemini cexC4Parse geminiOnlyEnv "gemini-3-flash" "p" "off" cexC4Up 9 1000 cexC4Fup

def witC4Up : Upstream := ⟨true, 200, "", true, []⟩

def witC6Up : Upstream := ⟨true, 200, "", true, [⟨5, "data: X\n\n"⟩]⟩

theorem strAppend_empty (s : String) : s ++ "" = s := by
  cases s with
  | mk d =>
    show String.mk (d ++ []) = String.mk d
    rw [List.append_nil]

theorem strAppend_assoc (a b c : String) : a ++ b ++ c = a ++ (b ++ c) := by
  cases a with
  | mk x =>
    cases b with
    | mk y =>
      cases c with
      | mk z =>
        show String.mk (x ++ y ++ z) = String.mk (x ++ (y ++ z))
        rw [List.append_assoc]

theorem openAIDeltaPart_text (model : String) (e : ℚ) (ev : Json) (st : StreamAcc) :
    (openAIDeltaPart model e ev st).text
      = match jsType ev, ev.field? "delta" with
        | some "response.output_text.delta", some (.str d) => st.text ++ d
        | _, _ => st.text := by
  unfold openAIDeltaPart
  split
  · split <;> rfl
  · rfl

theorem openAIItemDonePart_text (ev : Json) (st : StreamAcc) :
    (openAIItemDonePart ev st).text = st.text := by
  unfold openAIItemDonePart
  split
  · split
    · split <;> rfl
    · rfl
  · rfl

theorem openAICompletedPart_text (ev : Json) (st : StreamAcc) :
    (openAICompletedPart ev st).text
      = if jsType ev == some "response.completed" then
          match jsStr? (optField (ev.field? "response") "output_text") with
          | some t => if st.text == "" && t != "" then t else st.text
          | none => st.text
        else st.text := by
  unfold openAICompletedPart
  split
  · dsimp only
    split
    · next t ht =>
      by_cases hc : (st.text == "" && t != "") = true <;> simp [hc]
    · rfl
  · rfl

theorem openAIPayloadStep_text (parse : String → Option Json) (model : String) (e : ℚ)
    (st : StreamAcc) (p : String) :
    (openAIPayloadStep parse model e st p).text = openAITextStep parse st.text p := by
  unfold openAIPayloadStep openAITextStep
  split
  · rfl
  · cases hp : parse p with
    | none => rfl
    | some ev =>
      simp only [openAICompletedPart_text, openAIItemDonePart_text, openAIDeltaPart_text]

theorem geminiDeltaPart_text (model : String) (e : ℚ) (ev : Json) (st : StreamAcc) :
    (geminiDeltaPart model e ev st).text
      = st.text ++ (if geminiChunkTextOf ev != "" then geminiChunkTextOf ev else "") := by
  unfold geminiDeltaPart
  by_cases hc : (geminiChunkTextOf ev != "") = true
  · simp only [hc, if_true]
    split <;> rfl
  · simp [hc, strAppend_empty]

theorem geminiUsagePart_text (ev : Json) (st : StreamAcc) :
    (geminiUsagePart ev st).text = st.text := by
  unfold geminiUsagePart
  split
  · split <;> rfl
  · rfl

theorem geminiFinishPart_text (ev : Json) (st : StreamAcc) :
    (geminiFinishPart ev st).text = st.text := by
  unfold geminiFinishPart
  split
  · split <;> rfl
  · rfl

theorem geminiPayloadStep_text (parse : String → Option Json) (model : String) (e : ℚ)
    (st : StreamAcc) (p : String) :
    (geminiPayloadStep parse model e st p).text = geminiTextStep parse st.text p := by
  unfold geminiPayloadStep geminiTextStep geminiDelta
  by_cases hp0 : (p == "") = true
  · simp [hp0, strAppend_empty]
  · cases hp : parse p with
    | none => simp [hp0, hp, strAppend_empty]
    | some ev =>
      simp only [hp0, hp, Bool.false_eq_true, if_false, Option.bind_some,
        geminiFinishPart_text, geminiUsagePart_text, geminiDeltaPart_text]
      by_cases hc : (geminiChunkTextOf ev != "") = true
      · have hne : geminiChunkTextOf ev ≠ "" := by simpa [bne_iff_ne] using hc
        simp [hc, hne, strAppend_empty]
      · have heq : geminiChunkTextOf ev = "" := by simpa [bne_iff_ne] using hc
        simp [hc, heq, strAppend_empty]

theorem openAIDeltaPart_usage (model : String) (e : ℚ) (ev : Json) (st : StreamAcc) :
    (openAIDeltaPart model e ev st).usage = st.usage := by
  unfold openAIDeltaPart
  split
  · split <;> rfl
  · rfl

theorem openAIItemDonePart_usage (ev : Json) (st : StreamAcc) :
    (openAIItemDonePart ev st).usage = st.usage := by
  unfold openAIItemDonePart
  split
  · split
    · split <;> rfl
    · rfl
  · rfl

theorem openAICompletedPart_usage (ev : Json) (st : StreamAcc) :
    (openAICompletedPart ev st).usage
      = if jsType ev == some "response.completed" then
          nonNull (optField (ev.field? "response") "usage")
        else st.usage := by
  unfold openAICompletedPart
  split
  · dsimp only
    split
    · split <;> rfl
    · rfl
  · rfl

theorem openAIPayloadStep_usage (parse : String → Option Json) (model : String) (e : ℚ)
    (st : StreamAcc) (p : String) :
    (openAIPayloadStep parse model e st p).usage = openAIUsageStep parse st.usage p := by
  unfold openAIPayloadStep openAIUsageStep
  split
  · rfl
  · cases hp : parse p with
    | none => rfl
    | some ev =>
      simp only [openAICompletedPart_usage, openAIItemDonePart_usage, openAIDeltaPart_usage]

theorem geminiDeltaPart_usage (model : String) (e : ℚ) (ev : Json) (st : StreamAcc) :
    (geminiDeltaPart model e ev st).usage = st.usage := by
  unfold geminiDeltaPart
  by_cases hc : (geminiChunkTextOf ev != "") = true
  · simp only [hc, if_true]
    split <;> rfl
  · simp [hc]

theorem geminiUsagePart_usage (ev : Json) (st : StreamAcc) :
    (geminiUsagePart ev st).usage
      = match ev.field? "usageMetadata" with
        | some u => if jsTruthy u then some u else st.usage
        | none => st.usage := by
  unfold geminiUsagePart
  split
  · split <;> rfl
  · rfl

theorem geminiFinishPart_usage (ev : Json) (st : StreamAcc) :
    (geminiFinishPart ev st).usage = st.usage := by
  unfold geminiFinishPart
  split
  · split <;> rfl
  · rfl

theorem geminiPayloadStep_usage (parse : String → Option Json) (model : String) (e : ℚ)
    (st : StreamAcc) (p : String) :
    (geminiPayloadStep parse model e st p).usage = geminiUsageStep parse st.usage p := by
  unfold geminiPayloadStep geminiUsageStep
  split
  · rfl
  · cases hp : parse p with
    | none => rfl
    | some ev =>
      simp only [geminiFinishPart_usage, geminiUsagePart_usage, geminiDeltaPart_usage]

theorem azureDeltaPart_usage (model : String) (e : ℚ) (ev : Json) (st : StreamAcc) :
    (azureDeltaPart model e ev st).usage = st.usage := by
  unfold azureDeltaPart
  cases h : jsStr? (optField (optField (optIdx (ev.field? "choices") 0) "delta")
      "content") with
  | none => simp only [h]
  | some d =>
    simp only [h]
    by_cases hd : (d != "") = true
    · simp only [hd, if_true]
      split <;> rfl
    · simp [hd]

theorem azureUsagePart_usage (ev : Json) (st : StreamAcc) :
    (azureUsagePart ev st).usage
      = match ev.field? "usage" with
        | some u => if jsTruthy u then some u else st.usage
        | none => st.usage := by
  unfold azureUsagePart
  split
  · split <;> rfl
  · rfl

theorem azureFinishPart_usage (ev : Json) (st : StreamAcc) :
    (azureFinishPart ev st).usage = st.usage := by
  unfold azureFinishPart
  split
  · split <;> rfl
  · rfl

theorem azurePayloadStep_usage (parse : String → Option Json) (model : String) (e : ℚ)
    (st : StreamAcc) (p : String) :
    (azurePayloadStep parse model e st p).usage = azureUsageStep parse st.usage p := by
  unfold azurePayloadStep azureUsageStep
  split
  · rfl
  · cases hp : parse p with
    | none => rfl
    | some ev =>
      simp only [azureFinishPart_usage, azureUsagePart_usage, azureDeltaPart_usage]

theorem openAIDeltaPart_buffer (model : String) (e : ℚ) (ev : Json) (st : StreamAcc) :
    (openAIDeltaPart model e ev st).buffer = st.buffer := by
  unfold openAIDeltaPart
  split
  · split <;> rfl
  · rfl

theorem openAIItemDonePart_buffer (ev : Json) (st : StreamAcc) :
    (openAIItemDonePart ev st).buffer = st.buffer := by
  unfold openAIItemDonePart
  split
  · split
    · split <;> rfl
    · rfl
  · rfl

theorem openAICompletedPart_buffer (ev : Json) (st : StreamAcc) :
    (openAICompletedPart ev st).buffer = st.buffer := by
  unfold openAICompletedPart
  split
  · dsimp only
    split
    · split <;> rfl
    · rfl
  · rfl

theorem openAIPayloadStep_buffer (parse : String → Option Json) (model : String) (e : ℚ)
    (st : StreamAcc) (p : String) :
    (openAIPayloadStep parse model e st p).buffer = st.buffer := by
  unfold openAIPayloadStep
  split
  · rfl
  · cases hp : parse p with
    | none => rfl
    | some ev =>
      simp only [openAICompletedPart_buffer, openAIItemDonePart_buffer,
        openAIDeltaPart_buffer]

theorem geminiDeltaPart_buffer (model : String) (e : ℚ) (ev : Json) (st : StreamAcc) :
    (geminiDeltaPart model e ev st).buffer = st.buffer := by
  unfold geminiDeltaPart
  by_cases hc : (geminiChunkTextOf ev != "") = true
  · simp only [hc, if_true]
    split <;> rfl
  · simp [hc]

theorem geminiUsagePart_buffer (ev : Json) (st : StreamAcc) :
    (geminiUsagePart ev st).buffer = st.buffer := by
  unfold geminiUsagePart
  split
  · split <;> rfl
  · rfl

theorem geminiFinishPart_buffer (ev : Json) (st : StreamAcc) :
    (geminiFinishPart ev st).buffer = st.buffer := by
  unfold geminiFinishPart
  split
  · split <;> rfl
  · rfl

theorem geminiPayloadStep_buffer (parse : String → Option Json) (model : String) (e : ℚ)
    (st : StreamAcc) (p : String) :
    (geminiPayloadStep parse model e st p).buffer = st.buffer := by
  unfold geminiPayloadStep
  split
  · rfl
  · cases hp : parse p with
    | none => rfl
    | some ev =>
      simp only [geminiFinishPart_buffer, geminiUsagePart_buffer, geminiDeltaPart_buffer]

theorem azureDeltaPart_buffer (model : String) (e : ℚ) (ev : Json) (st : StreamAcc) :
    (azureDeltaPart model e ev st).buffer = st.buffer := by
  unfold azureDeltaPart
  cases h : jsStr? (optField (optField (optIdx (ev.field? "choices") 0) "delta")
      "content") with
  | none => simp only [h]
  | some d =>
    simp only [h]
    by_cases hd : (d != "") = true
    · simp only [hd, if_true]
      split <;> rfl
    · simp [hd]

theorem azureUsagePart_buffer (ev : Json) (st : StreamAcc) :
    (azureUsagePart ev st).buffer = st.buffer := by
  unfold azureUsagePart
  split
  · split <;> rfl
  · rfl

theorem azureFinishPart_buffer (ev : Json) (st : StreamAcc) :
    (azureFinishPart ev st).buffer = st.buffer := by
  unfold azureFinishPart
  split
  · split <;> rfl
  · rfl

theorem azurePayloadStep_buffer (parse : String → Option Json) (model : String) (e : ℚ)
    (st : StreamAcc) (p : String) :
    (azurePayloadStep parse model e st p).buffer = st.buffer := by
  unfold azurePayloadStep
  split
  · rfl
  · cases hp : parse p with
    | none => rfl
    | some ev =>
      simp only [azureFinishPart_buffer, azureUsagePart_buffer, azureDeltaPart_buffer]

/-! ## The buffering decoder refines the batch frame list -/


theorem payloadFold_proj {α : Type} (step : ℚ → StreamAcc → String → StreamAcc)
    (pi0 : StreamAcc → α) (sigma0 : α → String → α)
    (hstep : ∀ e st p, pi0 (step e st p) = sigma0 (pi0 st) p) (e : ℚ) :
    ∀ (ps : List String) (st : StreamAcc),
      pi0 (ps.foldl (step e) st) = ps.foldl sigma0 (pi0 st) := by
  intro ps
  induction ps with
  | nil => intro st; rfl
  | cons p rest ih =>
    intro st
    rw [List.foldl_cons, List.foldl_cons, ih, hstep]

theorem payloadFold_buffer (step : ℚ → StreamAcc → String → StreamAcc)
    (hbuf : ∀ e st p, (step e st p).buffer = st.buffer) (e : ℚ) :
    ∀ (ps : List String) (st : StreamAcc),
      (ps.foldl (step e) st).buffer = st.buffer := by
  intro ps
  induction ps with
  | nil => intro st; rfl
  | cons p rest ih =>
    intro st
    rw [List.foldl_cons, ih, hbuf]

theorem partsFold_proj {α : Type} (step : ℚ → StreamAcc → String → StreamAcc)
    (pi0 : StreamAcc → α) (sigma0 : α → String → α)
    (hstep : ∀ e st p, pi0 (step e st p) = sigma0 (pi0 st) p) (e : ℚ) :
    ∀ (parts : List (List Char)) (st : StreamAcc),
      pi0 (parts.foldl (fun s part => (dataPayloads part).foldl (step e) s) st)
        = ((parts.map dataPayloads).flatten).foldl sigma0 (pi0 st) := by
  intro parts
  induction parts with
  | nil => intro st; rfl
  | cons part rest ih =>
    intro st
    rw [List.foldl_cons, ih, List.map_cons, List.flatten_cons, List.foldl_append,
      payloadFold_proj step pi0 sigma0 hstep]

theorem partsFold_buffer (step : ℚ → StreamAcc → String → StreamAcc)
    (hbuf : ∀ e st p, (step e st p).buffer = st.buffer) (e : ℚ) :
    ∀ (parts : List (List Char)) (st : StreamAcc),
      (parts.foldl (fun s part => (dataPayloads part).foldl (step e) s) st).buffer
        = st.buffer := by
  intro parts
  induction parts with
  | nil => intro st; rfl
  | cons part rest ih =>
    intro st
    rw [List.foldl_cons, ih, payloadFold_buffer step hbuf]

theorem connectedUpdate_buffer (pv md : String) (st : StreamAcc) (ch : Chunk) :
    (connectedUpdate pv md st ch).buffer = st.buffer := by
  unfold connectedUpdate
  split <;> rfl

/-- The central decoder simulation: for any projection of the loop state
that is insensitive to `buffer` / `firstChunkMs` / `progress` updates and
transforms per payload like `sigma0`, folding the adapter's chunk step over
the stream equals folding `sigma0` over the frames that the buffering
decoder emits, and the loop's final buffer is the decoder's final buffer. -/
theorem chunkFold_sim {α : Type} (pv md : String)
    (step : ℚ → StreamAcc → String → StreamAcc) (pi0 : StreamAcc → α)
    (sigma0 : α → String → α)
    (hbuf : ∀ e st p, (step e st p).buffer = st.buffer)
    (hins : ∀ (st : StreamAcc) (b : List Char) (fc : Option ℚ)
      (prog : List ProgressEvent),
      pi0 { st with buffer := b, firstChunkMs := fc, progress := prog } = pi0 st)
    (hstep : ∀ e st p, pi0 (step e st p) = sigma0 (pi0 st) p) :
    ∀ (chunks : List Chunk) (st : StreamAcc),
      pi0 (chunks.foldl (chunkStep pv md step) st)
          = (decodeFrames st.buffer chunks).1.foldl sigma0 (pi0 st) ∧
        (chunks.foldl (chunkStep pv md step) st).buffer
          = (decodeFrames st.buffer chunks).2 := by
  intro chunks
  induction chunks with
  | nil => intro st; exact ⟨rfl, rfl⟩
  | cons ch rest ih =>
    intro st
    have hins1 : ∀ (st : StreamAcc) (ch : Chunk),
        pi0 (connectedUpdate pv md st ch) = pi0 st := by
      intro st ch
      unfold connectedUpdate
      split
      · exact hins st st.buffer (some ch.elapsed) _
      · rfl
    have hins2 : ∀ (st : StreamAcc) (b : List Char),
        pi0 { st with buffer := b } = pi0 st := by
      intro st b
      exact hins st b st.firstChunkMs st.progress
    have hstep1 : chunkStep pv md step st ch
        = (splitFull ((connectedUpdate pv md st ch).buffer ++ ch.data.data)).dropLast.foldl
            (fun s part => (dataPayloads part).foldl (step ch.elapsed) s)
            { connectedUpdate pv md st ch with
                buffer := (splitFull ((connectedUpdate pv md st ch).buffer
                  ++ ch.data.data)).getLastD [] } := rfl
    have hframes : decodeFrames st.buffer (ch :: rest)
        = ((decodeChunkFrames st.buffer ch.data).1
            ++ (decodeFrames (decodeChunkFrames st.buffer ch.data).2 rest).1,
           (decodeFrames (decodeChunkFrames st.buffer ch.data).2 rest).2) := rfl
    rw [List.foldl_cons, hframes]
    obtain ⟨ihp, ihb⟩ := ih (chunkStep pv md step st ch)
    have hchbuf : (chunkStep pv md step st ch).buffer
        = (decodeChunkFrames st.buffer ch.data).2 := by
      rw [hstep1, partsFold_buffer step hbuf]
      show (splitFull ((connectedUpdate pv md st ch).buffer ++ ch.data.data)).getLastD []
        = (decodeChunkFrames st.buffer ch.data).2
      rw [connectedUpdate_buffer]
      rfl
    have hchpi : pi0 (chunkStep pv md step st ch)
        = (decodeChunkFrames st.buffer ch.data).1.foldl sigma0 (pi0 st) := by
      rw [hstep1, partsFold_proj step pi0 sigma0 hstep]
      rw [hins2, hins1]
      rw [connectedUpdate_buffer]
      rfl
    constructor
    · rw [ihp, hchbuf, hchpi, List.foldl_append]
    · rw [ihb, hchbuf]

theorem strEmpty_append (s : String) : "" ++ s = s := rfl

theorem openAITextStep_no_inject (parse : String → Option Json) (txt p : String)
    (h : openAICompletedInject parse p = none) :
    openAITextStep parse txt p = txt ++ (openAIDelta parse p).getD "" := by
  unfold openAITextStep openAIDelta
  unfold openAICompletedInject at h
  by_cases hd : (p == "[DONE]") = true
  · simp [hd, strAppend_empty]
  · simp only [hd, Bool.false_eq_true, if_false] at h ⊢
    cases hp : parse p with
    | none => simp [strAppend_empty]
    | some ev =>
      rw [hp] at h
      simp only [Option.some_bind] at h ⊢
      by_cases hcomp : (jsType ev == some "response.completed") = true
      · have hty : jsType ev = some "response.completed" := by simpa using hcomp
        rw [hty] at h ⊢
        simp only [beq_self_eq_true, if_true] at h ⊢
        cases hout : jsStr? (optField (ev.field? "response") "output_text") with
        | none => simp [strAppend_empty]
        | some t =>
          simp only [hout] at h
          by_cases ht : (t != "") = true
          · rw [if_pos ht] at h
            exact absurd h (by simp)
          · have ht2 : (t != "") = false := by
              cases hb : (t != "") with
              | true => exact absurd hb ht
              | false => rfl
            simp [ht2, strAppend_empty]
      · simp only [hcomp, Bool.false_eq_true, if_false]
        cases hjt : jsType ev with
        | none => simp [hjt, strAppend_empty]
        | some jt =>
          by_cases hjd : jt = "response.output_text.delta"
          · subst hjd
            cases hdl : ev.field? "delta" with
            | none => simp [hjt, hdl, strAppend_empty]
            | some v =>
              cases v <;> simp [hjt, hdl, strAppend_empty]
          · simp [hjt, hjd, strAppend_empty]

theorem openAITextStep_concat (parse : String → Option Json) :
    ∀ (frames : List String) (txt : String),
      (∀ q ∈ frames, openAICompletedInject parse q = none) →
      frames.foldl (openAITextStep parse) txt
        = txt ++ strConcat (frames.filterMap (openAIDelta parse)) := by
  intro frames
  induction frames with
  | nil =>
    intro txt h
    simp [strConcat, strAppend_empty]
  | cons f fs ih =>
    intro txt h
    rw [List.foldl_cons, openAITextStep_no_inject parse txt f (h f (by simp)),
      ih _ (fun q hq => h q (List.mem_cons_of_mem _ hq))]
    cases hdel : openAIDelta parse f with
    | none => simp [List.filterMap_cons, hdel, strAppend_empty]
    | some d => simp [List.filterMap_cons, hdel, strConcat, strAppend_assoc]

theorem geminiTextStep_concat (parse : String → Option Json) :
    ∀ (frames : List String) (txt : String),
      frames.foldl (geminiTextStep parse) txt
        = txt ++ strConcat (frames.filterMap (geminiDelta parse)) := by
  intro frames
  induction frames with
  | nil =>
    intro txt
    simp [strConcat, strAppend_empty]
  | cons f fs ih =>
    intro txt
    rw [List.foldl_cons]
    show fs.foldl (geminiTextStep parse) (txt ++ (geminiDelta parse f).getD "")
      = txt ++ strConcat ((f :: fs).filterMap (geminiDelta parse))
    rw [ih]
    cases hdel : geminiDelta parse f with
    | none => simp [List.filterMap_cons, hdel, strAppend_empty]
    | some d => simp [List.filterMap_cons, hdel, strConcat, strAppend_assoc]

/-- The OpenAI streaming loop refines the frame pipeline: its accumulated
text and usage are folds over the frames the buffering decoder emits, and
its final buffer is the decoder's trailing partial block. -/
theorem openAIStreamCore_sim (parse : String → Option Json) (model : String)
    (up : Upstream) :
    (openAIStreamCore parse model up).text
        = (decodeFrames [] up.chunks).1.foldl (openAITextStep parse) "" ∧
      (openAIStreamCore parse model up).usage
        = (decodeFrames [] up.chunks).1.foldl (openAIUsageStep parse) none ∧
      (openAIStreamCore parse model up).buffer = (decodeFrames [] up.chunks).2 := by
  have ht := chunkFold_sim "openai" model (openAIPayloadStep parse model)
    (fun st => st.text) (openAITextStep parse) (openAIPayloadStep_buffer parse model)
    (fun st b fc prog => rfl) (openAIPayloadStep_text parse model) up.chunks initAcc
  have hu := chunkFold_sim "openai" model (openAIPayloadStep parse model)
    (fun st => st.usage) (openAIUsageStep parse) (openAIPayloadStep_buffer parse model)
    (fun st b fc prog => rfl) (openAIPayloadStep_usage parse model) up.chunks initAcc
  exact ⟨ht.1, hu.1, ht.2⟩

/-- The Azure Foundry streaming loop refines the frame pipeline. -/
theorem azureStreamCore_sim (parse : String → Option Json) (model : String)
    (up : Upstream) :
    (azureStreamCore parse model up).usage
        = (decodeFrames [] up.chunks).1.foldl (azureUsageStep parse) none ∧
      (azureStreamCore parse model up).buffer = (decodeFrames [] up.chunks).2 := by
  have hu := chunkFold_sim "azure_foundry" model (azurePayloadStep parse model)
    (fun st => st.usage) (azureUsageStep parse) (azurePayloadStep_buffer parse model)
    (fun st b fc prog => rfl) (azurePayloadStep_usage parse model) up.chunks initAcc
  exact ⟨hu.1, hu.2⟩

/-- The Gemini streaming loop refines the frame pipeline. -/
theorem geminiStreamCore_sim (parse : String → Option Json) (model : String)
    (up : Upstream) :
    (geminiStreamCore parse model up).text
        = (decodeFrames [] up.chunks).1.foldl (geminiTextStep parse) "" ∧
      (geminiStreamCore parse model up).usage
        = (decodeFrames [] up.chunks).1.foldl (geminiUsageStep parse) none ∧
      (geminiStreamCore parse model up).buffer = (decodeFrames [] up.chunks).2 := by
  have ht := chunkFold_sim "gemini" model (geminiPayloadStep parse model)
    (fun st => st.text) (geminiTextStep parse) (geminiPayloadStep_buffer parse model)
    (fun st b fc prog => rfl) (geminiPayloadStep_text parse model) up.chunks initAcc
  have hu := chunkFold_sim "gemini" model (geminiPayloadStep parse model)
    (fun st => st.usage) (geminiUsageStep parse) (geminiPayloadStep_buffer parse model)
    (fun st b fc prog => rfl) (geminiPayloadStep_usage parse model) up.chunks initAcc
  exact ⟨ht.1, hu.1, ht.2⟩

/-- The Gemini flush runs the same payload pipeline over the trailing
block's payloads, leaving the buffer untouched. -/
theorem geminiFlush_sim (parse : String → Option Json) (model : String) (flushMs : ℚ)
    (st : StreamAcc) :
    (geminiFlush parse model flushMs st).text
        = (flushPayloads st.buffer).foldl (geminiTextStep parse) st.text ∧
      (geminiFlush parse model flushMs st).usage
        = (flushPayloads st.buffer).foldl (geminiUsageStep parse) st.usage ∧
      (geminiFlush parse model flushMs st).buffer = st.buffer := by
  unfold geminiFlush
  exact ⟨payloadFold_proj (geminiPayloadStep parse model) (fun st => st.text)
      (geminiTextStep parse) (geminiPayloadStep_text parse model) flushMs _ st,
    payloadFold_proj (geminiPayloadStep parse model) (fun st => st.usage)
      (geminiUsageStep parse) (geminiPayloadStep_usage parse model) flushMs _ st,
    payloadFold_buffer (geminiPayloadStep parse model)
      (geminiPayloadStep_buffer parse model) flushMs _ st⟩

/-- The whole Gemini decode (stream loop plus flush) folds over the
decoder's frames plus the flushed trailing block's payloads. -/
theorem geminiDecode_sim (parse : String → Option Json) (model : String)
    (up : Upstream) (flushMs : ℚ) :
    (geminiFlush parse model flushMs (geminiStreamCore parse model up)).text
        = ((decodeFrames [] up.chunks).1
            ++ flushPayloads (decodeFrames [] up.chunks).2).foldl (geminiTextStep parse) "" ∧
      (geminiFlush parse model flushMs (geminiStreamCore parse model up)).usage
        = ((decodeFrames [] up.chunks).1
            ++ flushPayloads (decodeFrames [] up.chunks).2).foldl (geminiUsageStep parse)
            none ∧
      (geminiFlush parse model flushMs (geminiStreamCore parse model up)).buffer
        = (decodeFrames [] up.chunks).2 := by
  obtain ⟨hct, hcu, hcb⟩ := geminiStreamCore_sim parse model up
  obtain ⟨hft, hfu, hfb⟩ := geminiFlush_sim parse model flushMs
    (geminiStreamCore parse model up)
  refine ⟨?_, ?_, ?_⟩
  · rw [hft, hcb, hct, List.foldl_append]
  · rw [hfu, hcb, hcu, List.foldl_append]
  · rw [hfb, hcb]

/-! ## Claim C9: provider discovery -/


/-- Claim C9, counterexample: with no credentials configured at all (in
particular no Gemini API key), the discovery operation still lists the
gemini provider, so membership is not driven by which credentials are
configured. -/
theorem claim_C9_counterexample :
    envTruthy emptyEnv.GEMINI_API_KEY = none ∧
    "gemini" ∈ (apiModels emptyEnv).map ModelListing.id := by
  decide

/-- Claim C9 (amended): the discovery operation returns one entry per
provider of the static `MODEL_OPTIONS` table — always all three of
`openai`, `gemini` and `azure_foundry`, with the display label
`PROVIDER · model` — regardless of which credentials are configured. -/
theorem claim_C9_discovery (env : Env) :
    apiModels env =
      [ ⟨"openai", "OPENAI · " ++ envOr env.OPENAI_MODEL "gpt-5.2"⟩,
        ⟨"gemini", "GEMINI · " ++ envOr env.GEMINI_MODEL "gemini-3-flash"⟩,
        ⟨"azure_foundry", "AZURE_FOUNDRY · " ++ envOr env.AZURE_FOUNDRY_MODEL "gpt-5.2"⟩ ] := by
  rfl

/-! ## Claim C8: thinking-mode resolution -/


/-- Claim C8, counterexample: an invocation that ends in an error outcome
(here: missing OpenAI credential) carries `metrics = null`, so the resolved
thinking value is *not* echoed back in `metrics.thinkingBudget` for error
outcomes. -/
theorem claim_C8_counterexample :
    ((runProviderRequest ⟨"openai", "gpt-5.2"⟩
        (callOpenAI parseNone emptyEnv "gpt-5.2" "on" upEmpty 0)).2.metrics = none) ∧
    (runProviderRequest ⟨"openai", "gpt-5.2"⟩
        (callOpenAI parseNone emptyEnv "gpt-5.2" "on" upEmpty 0)).2.error = true := by
  constructor <;> rfl

/-- Claim C8 (amended): `thinkingMode` is resolved via the fixed two-entry
lookups (`off` maps to the minimal/zero setting `none` / `0`, `on` maps to
the moderate non-zero setting `medium` / `1024`), and the resolved value is
echoed back in `metrics.thinkingBudget` of every *successful* outcome of
every adapter; an error outcome has `metrics = null`, so nothing is echoed
there. -/
theorem claim_C8_thinking_budget (parse : String → Option Json) (env : Env)
    (model prompt thinkingMode : String) (up : Upstream) (flushMs totalMs : ℚ)
    (fup : FallbackUpstream) (selected : ModelOption) (run : AdapterRun) :
    openaiReasoningEffort "off" = "none" ∧ openaiReasoningEffort "on" = "medium" ∧
    getGeminiThinkingBudget "off" = 0 ∧ getGeminiThinkingBudget "on" = 1024 ∧
    (callOpenAI parse env model thinkingMode up totalMs).result.map
        (fun r => r.metrics.thinkingBudget)
      = (callOpenAI parse env model thinkingMode up totalMs).result.map
        (fun _ => Json.str (openaiReasoningEffort thinkingMode)) ∧
    (callAzureFoundry parse env model thinkingMode up totalMs).result.map
        (fun r => r.metrics.thinkingBudget)
      = (callAzureFoundry parse env model thinkingMode up totalMs).result.map
        (fun _ => Json.str (openaiReasoningEffort thinkingMode)) ∧
    (callGemini parse env model prompt thinkingMode up flushMs totalMs fup).result.map
        (fun r => r.metrics.thinkingBudget)
      = (callGemini parse env model prompt thinkingMode up flushMs totalMs fup).result.map
        (fun _ => Json.num (getGeminiThinkingBudget thinkingMode)) ∧
    (runProviderRequest selected run).2.metrics
      = run.result.toOption.map (fun r => r.metrics) := by
  refine ⟨rfl, rfl, rfl, rfl, ?_, ?_, ?_, ?_⟩
  · cases h : envTruthy env.OPENAI_API_KEY
    · simp [callOpenAI, h, Except.map]
    · simp only [callOpenAI, h]
      split <;> simp [Except.map, openAIMetricsOf]
  · cases h1 : envTruthy env.AZURE_FOUNDRY_ENDPOINT
    · simp [callAzureFoundry, h1, Except.map]
    · cases h2 : envTruthy env.AZURE_FOUNDRY_API_KEY
      · simp [callAzureFoundry, h1, h2, Except.map]
      · cases h3 : envTruthy env.AZURE_FOUNDRY_DEPLOYMENT
        · simp [callAzureFoundry, h1, h2, h3, Except.map]
        · simp only [callAzureFoundry, h1, h2, h3]
          split <;> simp [Except.map, azureMetricsOf]
  · cases h : envTruthy env.GEMINI_API_KEY
    · simp [callGemini, h, Except.map]
    · simp only [callGemini, h]
      split <;> simp [Except.map, geminiMetricsOf]
  · cases h : run.result <;> simp [runProviderRequest, h, Except.toOption]

/-! ## Claim C3: tokens-per-second formula -/


theorem tps_if_eq_spec (b : Option ℚ) (totalMs : ℚ) (h : 0 ≤ totalMs) :
    (if numTruthy b && decide (totalMs > 0) then
        b.map (fun x => round2 (x / (totalMs / 1000)))
      else none) = specTokensPerSecond b totalMs := by
  cases b with
  | none => simp [numTruthy, specTokensPerSecond]
  | some x =>
    by_cases hx : x = 0
    · simp [numTruthy, specTokensPerSecond, hx]
    · by_cases ht : totalMs = 0
      · simp [numTruthy, specTokensPerSecond, hx, ht]
      · have hpos : 0 < totalMs := lt_of_le_of_ne h (Ne.symm ht)
        simp [numTruthy, specTokensPerSecond, hx, ht, hpos]

/-- Claim C3, counterexample: in a concrete Gemini outcome with
`billedOutputTokens = 15` (10 candidate + 5 thinking tokens) and
`totalLatencyMs = 1000`, the adapter reports `tokensPerSecond = 10` — it
divides the *visible* output tokens by the duration — whereas the claimed
formula `billedOutputTokens / (totalLatencyMs/1000)` rounded to two
decimals gives 15. -/
theorem claim_C3_counterexample :
    cexGeminiMetrics.billedOutputTokens = some 15 ∧
    cexGeminiMetrics.totalLatencyMs = 1000 ∧
    cexGeminiMetrics.tokensPerSecond = some 10 ∧
    round2 (15 / ((1000 : ℚ) / 1000)) = 15 ∧ (10 : ℚ) ≠ 15 := by
  have h1 : cexGeminiMetrics.billedOutputTokens = some (10 + 5) := rfl
  have h2 : cexGeminiMetrics.totalLatencyMs = round2 1000 := rfl
  have h3 : cexGeminiMetrics.tokensPerSecond = some (round2 (10 / ((1000 : ℚ) / 1000))) := rfl
  refine ⟨?_, ?_, ?_, ?_, ?_⟩
  · rw [h1]; norm_num
  · rw [h2]; norm_num [round2]
  · rw [h3]; norm_num [round2]
  · norm_num [round2]
  · norm_num

/-- Claim C3 (amended): for every adapter, `tokensPerSecond` is null
whenever its tokens operand is null/zero or the raw duration is zero, and
otherwise equals that operand divided by `(duration/1000)` rounded to two
decimals — where the tokens operand is `billedOutputTokens` for the OpenAI
and Azure Foundry adapters, but the *visible* `outputTokens` (excluding
thinking tokens) for the Gemini adapter. -/
theorem claim_C3_tokens_per_second (usage : Option Json) (fc ft : Option ℚ)
    (totalMs : ℚ) (text : String) (fr : Option Json) (eff : String) (tb : ℚ)
    (se : Bool) (h : 0 ≤ totalMs) :
    (openAIMetricsOf usage fc ft totalMs text fr eff).tokensPerSecond
      = specTokensPerSecond (openAIMetricsOf usage fc ft totalMs text fr eff).billedOutputTokens
          totalMs ∧
    (azureMetricsOf usage fc ft totalMs text fr eff).tokensPerSecond
      = specTokensPerSecond (azureMetricsOf usage fc ft totalMs text fr eff).billedOutputTokens
          totalMs ∧
    (geminiMetricsOf usage fc ft totalMs text fr tb se).tokensPerSecond
      = specTokensPerSecond (geminiMetricsOf usage fc ft totalMs text fr tb se).outputTokens
          totalMs := by
  refine ⟨?_, ?_, ?_⟩
  · simp only [openAIMetricsOf]
    exact tps_if_eq_spec _ _ h
  · simp only [azureMetricsOf]
    exact tps_if_eq_spec _ _ h
  · simp only [geminiMetricsOf]
    exact tps_if_eq_spec _ _ h

/-- Claim C3, witness for the amended theorem's hypothesis `0 ≤ totalMs`. -/
theorem claim_C3_witness :
    (0 : ℚ) ≤ 1000 ∧
    ((openAIMetricsOf none none none 1000 "" none "none").tokensPerSecond
      = specTokensPerSecond
          (openAIMetricsOf none none none 1000 "" none "none").billedOutputTokens 1000 ∧
     (azureMetricsOf none none none 1000 "" none "none").tokensPerSecond
      = specTokensPerSecond
          (azureMetricsOf none none none 1000 "" none "none").billedOutputTokens 1000 ∧
     (geminiMetricsOf none none none 1000 "" none 0 true).tokensPerSecond
      = specTokensPerSecond
          (geminiMetricsOf none none none 1000 "" none 0 true).outputTokens 1000) :=
  ⟨by decide, claim_C3_tokens_per_second none none none 1000 "" none "none" 0 true (by decide)⟩

/-! ## Claim C10: response text fallback placeholder -/


/-- Claim C10 (confirmed): every non-error outcome's `responseText` is
`accumulated.trim() || '[No text returned]'`: the whitespace-trimmed
accumulated text when that is non-empty, else the fixed placeholder — and
it is never the empty string.  The final conjunct links the adapter result
to the outcome streamed by `runProviderRequest`. -/
theorem claim_C10_response_text (parse : String → Option Json) (env : Env)
    (model prompt thinkingMode : String) (up : Upstream) (flushMs totalMs : ℚ)
    (fup : FallbackUpstream) (selected : ModelOption) (pr : List ProgressEvent)
    (nreq : ℕ) (fb : Option Json) (r0 : CallResult) :
    ((callOpenAI parse env model thinkingMode up totalMs).result.map (fun r => r.text)
      = (callOpenAI parse env model thinkingMode up totalMs).result.map
          (fun _ => jsOrStr (jsTrim (openAIStreamCore parse model up).text)
            "[No text returned]")) ∧
    ((callAzureFoundry parse env model thinkingMode up totalMs).result.map (fun r => r.text)
      = (callAzureFoundry parse env model thinkingMode up totalMs).result.map
          (fun _ => jsOrStr (jsTrim (azureStreamCore parse model up).text)
            "[No text returned]")) ∧
    ((callGemini parse env model prompt thinkingMode up flushMs totalMs fup).result.map
        (fun r => r.text)
      = (callGemini parse env model prompt thinkingMode up flushMs totalMs fup).result.map
          (fun _ => jsOrStr (jsTrim (geminiAdoptedText parse model up flushMs fup))
            "[No text returned]")) ∧
    (∀ s : String, jsOrStr (jsTrim s) "[No text returned]" ≠ "" ∧
      (jsOrStr (jsTrim s) "[No text returned]" = jsTrim s ∨
       (jsTrim s = "" ∧ jsOrStr (jsTrim s) "[No text returned]" = "[No text returned]"))) ∧
    (runProviderRequest selected ⟨pr, nreq, fb, .ok r0⟩).2.response = r0.text := by
  refine ⟨?_, ?_, ?_, ?_, rfl⟩
  · cases h : envTruthy env.OPENAI_API_KEY
    · simp [callOpenAI, h, Except.map]
    · simp only [callOpenAI, h]
      split <;> simp [Except.map]
  · cases h1 : envTruthy env.AZURE_FOUNDRY_ENDPOINT
    · simp [callAzureFoundry, h1, Except.map]
    · cases h2 : envTruthy env.AZURE_FOUNDRY_API_KEY
      · simp [callAzureFoundry, h1, h2, Except.map]
      · cases h3 : envTruthy env.AZURE_FOUNDRY_DEPLOYMENT
        · simp [callAzureFoundry, h1, h2, h3, Except.map]
        · simp only [callAzureFoundry, h1, h2, h3]
          split <;> simp [Except.map]
  · cases h : envTruthy env.GEMINI_API_KEY
    · simp [callGemini, h, Except.map]
    · simp only [callGemini, h, geminiAdoptedText]
      split <;> simp [Except.map]
  · intro s
    by_cases h : jsTrim s = "" <;> simp [jsOrStr, h]

/-! ## Fan-out orchestrator lemmas -/


theorem raceSelect_snd_length (t : RaceTask) (ts : List RaceTask) :
    (raceSelect t ts).2.length = ts.length := by
  induction ts generalizing t with
  | nil => simp [raceSelect]
  | cons u rest ih =>
    simp only [raceSelect]
    split
    · simp
    · simpa using ih u

theorem raceSelect_perm (t : RaceTask) (ts : List RaceTask) :
    ((raceSelect t ts).1 :: (raceSelect t ts).2).Perm (t :: ts) := by
  induction ts generalizing t with
  | nil => simp [raceSelect]
  | cons u rest ih =>
    simp only [raceSelect]
    split
    · exact List.Perm.refl _
    · exact (List.Perm.swap t (raceSelect u rest).1 (raceSelect u rest).2).trans
        ((ih u).cons t)

theorem raceSelect_fst_le (t : RaceTask) (ts : List RaceTask) :
    (raceSelect t ts).1.settleAt ≤ t.settleAt ∧
    ∀ u ∈ ts, (raceSelect t ts).1.settleAt ≤ u.settleAt := by
  induction ts generalizing t with
  | nil => simp [raceSelect]
  | cons v rest ih =>
    simp only [raceSelect]
    split
    · next hle =>
      refine ⟨le_rfl, ?_⟩
      intro u hu
      rcases List.mem_cons.mp hu with h | h
      · subst h
        exact le_trans hle (ih u).1
      · exact le_trans hle ((ih v).2 u h)
    · next hgt =>
      refine ⟨le_of_lt (not_le.mp hgt), ?_⟩
      intro u hu
      rcases List.mem_cons.mp hu with h | h
      · subst h
        exact (ih u).1
      · exact (ih v).2 u h

theorem raceSelect_min (t : RaceTask) (ts : List RaceTask) :
    ∀ u ∈ t :: ts, (raceSelect t ts).1.settleAt ≤ u.settleAt := by
  intro u hu
  rcases List.mem_cons.mp hu with h | h
  · subst h
    exact (raceSelect_fst_le u ts).1
  · exact (raceSelect_fst_le t ts).2 u h

theorem streamChat_spec (ts : List RaceTask) :
    ∃ settled : List RaceTask, settled.Perm ts ∧
      settled.Sorted (fun a b => a.settleAt ≤ b.settleAt) ∧
      streamChat ts
        = settled.map (fun t => StreamEvent.result t.outcome) ++ [StreamEvent.done] := by
  suffices key : ∀ (n : ℕ) (l : List RaceTask), l.length = n →
      ∃ settled : List RaceTask, settled.Perm l ∧
        settled.Sorted (fun a b => a.settleAt ≤ b.settleAt) ∧
        streamChat l
          = settled.map (fun t => StreamEvent.result t.outcome) ++ [StreamEvent.done] by
    exact key ts.length ts rfl
  intro n
  induction n using Nat.strong_induction_on with
  | _ n ih =>
    intro l hlen
    cases l with
    | nil => exact ⟨[], List.Perm.refl _, List.sorted_nil, by simp [streamChat]⟩
    | cons t rest =>
      have hlt : (raceSelect t rest).2.length < n := by
        rw [raceSelect_snd_length]
        simp only [List.length_cons] at hlen
        omega
      obtain ⟨settled, hperm, hsort, heq⟩ := ih _ hlt _ rfl
      refine ⟨(raceSelect t rest).1 :: settled, ?_, ?_, ?_⟩
      · exact ((hperm.cons _).trans (raceSelect_perm t rest))
      · refine List.Pairwise.cons ?_ hsort
        intro u hu
        exact raceSelect_min t rest u
          ((raceSelect_perm t rest).mem_iff.mp (List.mem_cons_of_mem _ (hperm.mem_iff.mp hu)))
      · rw [streamChat, heq]
        simp

theorem runProviderRequest_provider (o : ModelOption) (r : AdapterRun) :
    (runProviderRequest o r).2.provider = o.provider := by
  cases h : r.result <;> simp [runProviderRequest, h]

/-- Claim C1 (confirmed): for every well-formed chat request, the fan-out
emits exactly one result event per configured provider — the emitted result
events are a permutation of the three providers' outcomes, ordered by
settle instant (not launch order) — followed by exactly one terminal `done`
event.  Quantifying over `sched` (when each adapter's promise settles) and
`adapterOf` (what each adapter does) covers every execution of the race
loop. -/
theorem claim_C1_fanout (env : Env) (sched : ModelOption → ℕ)
    (adapterOf : ModelOption → AdapterRun) :
    ∃ settled : List RaceTask,
      settled.Perm ((MODEL_OPTIONS env).map
        (fun o => ⟨sched o, (runProviderRequest o (adapterOf o)).2⟩)) ∧
      settled.Sorted (fun a b => a.settleAt ≤ b.settleAt) ∧
      streamChatResults env sched adapterOf
        = settled.map (fun t => StreamEvent.result t.outcome) ++ [StreamEvent.done] ∧
      (settled.map (fun t => t.outcome.provider)).Perm
        ["openai", "gemini", "azure_foundry"] := by
  obtain ⟨settled, hperm, hsort, heq⟩ :=
    streamChat_spec ((MODEL_OPTIONS env).map
      (fun o => ⟨sched o, (runProviderRequest o (adapterOf o)).2⟩))
  refine ⟨settled, hperm, hsort, heq, ?_⟩
  have hmap := hperm.map (fun t => t.outcome.provider)
  refine hmap.trans ?_
  have h3 : List.map (fun t => t.outcome.provider)
      ((MODEL_OPTIONS env).map
        (fun o => (⟨sched o, (runProviderRequest o (adapterOf o)).2⟩ : RaceTask)))
      = ["openai", "gemini", "azure_foundry"] := by
    simp [ MODEL_OPTIONS, Function.comp, runProviderRequest_provider]
  rw [h3]

/-! ## Claim C2: missing credentials -/


/-- Claim C2, counterexample: with the OpenAI credential absent, a
milestone progress event (`started`) *is* emitted for that provider by
`runProviderRequest` before the credential check, so "no milestone events
are emitted for that provider" fails. -/
theorem claim_C2_counterexample :
    (runProviderRequest ⟨"openai", "gpt-5.2"⟩
        (callOpenAI parseNone emptyEnv "gpt-5.2" "off" upEmpty 0)).1
      = [mkProgress "openai" "gpt-5.2" "started" 0 "Request gestartet"] ∧
    (runProviderRequest ⟨"openai", "gpt-5.2"⟩
        (callOpenAI parseNone emptyEnv "gpt-5.2" "off" upEmpty 0)).1 ≠ [] := by
  have h1 : (runProviderRequest ⟨"openai", "gpt-5.2"⟩
      (callOpenAI parseNone emptyEnv "gpt-5.2" "off" upEmpty 0)).1
      = [mkProgress "openai" "gpt-5.2" "started" 0 "Request gestartet"] := rfl
  exact ⟨h1, by rw [h1]; simp⟩

/-- Claim C2 (amended): for every provider whose required credential is
absent, the adapter fails with its `ConfigurationError` before issuing any
network call (`httpRequests = 0`, and the run does not depend on the
upstream at all since `up` is arbitrary) and the adapter itself emits no
milestone events — only the unconditional `started` event emitted by
`runProviderRequest` appears for that provider; the failure is converted
into an error outcome (`error = true`, `metrics = null`), and the fan-out
still emits every other task's outcome (one result event per task followed
by `done`). -/
theorem claim_C2_missing_credentials (parse : String → Option Json)
    (env1 env2 env3 : Env) (model prompt thinkingMode : String)
    (up up2 up3 : Upstream) (flushMs totalMs : ℚ) (fup : FallbackUpstream) :
    (envTruthy env1.OPENAI_API_KEY = none →
      callOpenAI parse env1 model thinkingMode up totalMs
        = ⟨[], 0, none, .error "OPENAI_API_KEY is not configured."⟩) ∧
    (envTruthy env2.GEMINI_API_KEY = none →
      callGemini parse env2 model prompt thinkingMode up2 flushMs totalMs fup
        = ⟨[], 0, none, .error "GEMINI_API_KEY is not configured."⟩) ∧
    (envTruthy env3.AZURE_FOUNDRY_ENDPOINT = none →
      callAzureFoundry parse env3 model thinkingMode up3 totalMs
        = ⟨[], 0, none, .error "AZURE_FOUNDRY_ENDPOINT is not configured."⟩) ∧
    (∀ (e : String) (selected : ModelOption),
      runProviderRequest selected ⟨[], 0, none, .error e⟩
        = ([mkProgress selected.provider selected.model "started" 0 "Request gestartet"],
           ⟨selected.provider, selected.model, "Fehler: " ++ e, none, true⟩)) ∧
    (∀ tasks : List RaceTask, ∃ settled : List RaceTask, settled.Perm tasks ∧
      streamChat tasks
        = settled.map (fun t => StreamEvent.result t.outcome) ++ [StreamEvent.done]) := by
  refine ⟨?_, ?_, ?_, ?_, ?_⟩
  · intro h; simp [callOpenAI, h]
  · intro h; simp [callGemini, h]
  · intro h; simp [callAzureFoundry, h]
  · intro e selected; rfl
  · intro tasks
    obtain ⟨settled, hperm, _, heq⟩ := streamChat_spec tasks
    exact ⟨settled, hperm, heq⟩

/-- Claim C2, witness: the amended theorem applied at a concrete input,
discharging each credential-absence hypothesis. -/
theorem claim_C2_witness :
    (envTruthy emptyEnv.OPENAI_API_KEY = none ∧
     envTruthy emptyEnv.GEMINI_API_KEY = none ∧
     envTruthy emptyEnv.AZURE_FOUNDRY_ENDPOINT = none) ∧
    callOpenAI parseNone emptyEnv "gpt-5.2" "off" upEmpty 0
      = ⟨[], 0, none, .error "OPENAI_API_KEY is not configured."⟩ ∧
    callGemini parseNone emptyEnv "gemini-3-flash" "p" "off" upEmpty 0 0 ⟨false, .null⟩
      = ⟨[], 0, none, .error "GEMINI_API_KEY is not configured."⟩ ∧
    callAzureFoundry parseNone emptyEnv "gpt-5.2" "off" upEmpty 0
      = ⟨[], 0, none, .error "AZURE_FOUNDRY_ENDPOINT is not configured."⟩ :=
  ⟨⟨rfl, rfl, rfl⟩,
   (claim_C2_missing_credentials parseNone emptyEnv emptyEnv emptyEnv "gpt-5.2" "p" "off"
      upEmpty upEmpty upEmpty 0 0 ⟨false, .null⟩).1 rfl,
   (claim_C2_missing_credentials parseNone emptyEnv emptyEnv emptyEnv "gemini-3-flash" "p" "off"
      upEmpty upEmpty upEmpty 0 0 ⟨false, .null⟩).2.1 rfl,
   (claim_C2_missing_credentials parseNone emptyEnv emptyEnv emptyEnv "gpt-5.2" "p" "off"
      upEmpty upEmpty upEmpty 0 0 ⟨false, .null⟩).2.2.1 rfl⟩

/-! ## Claim C5: the trailing partial block -/


/-- Claim C5, counterexample: the OpenAI adapter does not flush the trailing
partial block — the delta `hi` carried only in that block is lost, so the
accumulated text is `ok`, not `okhi` as the claim ("text deltas ... carried
only in that trailing block are not lost" for every adapter) requires. -/
theorem claim_C5_counterexample :
    (openAIStreamCore cexC5Parse "m" cexC5Up).text = "ok" ∧
    (flushPayloads (decodeFrames [] cexC5Up.chunks).2).filterMap (openAIDelta cexC5Parse)
      = ["hi"] ∧
    ("ok" : String) ≠ "ok" ++ "hi" := by
  refine ⟨rfl, rfl, by decide⟩

/-- Claim C5 (amended): only the Gemini adapter flushes the trailing
partial block at stream end.  The accumulated text and the last-wins usage
of the OpenAI and Azure Foundry adapters are folds over the payloads of the
*complete* blocks only, and whatever remains buffered at stream end is left
there unparsed; the Gemini adapter's text and usage additionally fold over
the payloads flushed from the trailing block, so deltas and usage carried
only there are preserved by Gemini and lost by the other two adapters. -/
theorem claim_C5_trailing_block (parse : String → Option Json) (model : String)
    (up : Upstream) (flushMs : ℚ) :
    (openAIStreamCore parse model up).text
        = (decodeFrames [] up.chunks).1.foldl (openAITextStep parse) "" ∧
    (openAIStreamCore parse model up).usage
        = (decodeFrames [] up.chunks).1.foldl (openAIUsageStep parse) none ∧
    (openAIStreamCore parse model up).buffer = (decodeFrames [] up.chunks).2 ∧
    (azureStreamCore parse model up).usage
        = (decodeFrames [] up.chunks).1.foldl (azureUsageStep parse) none ∧
    (azureStreamCore parse model up).buffer = (decodeFrames [] up.chunks).2 ∧
    (geminiFlush parse model flushMs (geminiStreamCore parse model up)).text
        = ((decodeFrames [] up.chunks).1
            ++ flushPayloads (decodeFrames [] up.chunks).2).foldl (geminiTextStep parse)
            "" ∧
    (geminiFlush parse model flushMs (geminiStreamCore parse model up)).usage
        = ((decodeFrames [] up.chunks).1
            ++ flushPayloads (decodeFrames [] up.chunks).2).foldl (geminiUsageStep parse)
            none := by
  obtain ⟨ho1, ho2, ho3⟩ := openAIStreamCore_sim parse model up
  obtain ⟨ha1, ha2⟩ := azureStreamCore_sim parse model up
  obtain ⟨hg1, hg2, _⟩ := geminiDecode_sim parse model up flushMs
  exact ⟨ho1, ho2, ho3, ha1, ha2, hg1, hg2⟩

/-! ## Claim C7: malformed frames are skipped -/


/-- Claim C7, counterexample: an OpenAI stream with zero delta frames whose
`response.completed` frame carries `output_text` ends with accumulated text
`hello`, while the concatenation of the text deltas of the valid frames is
empty — the final text does not always equal the concatenation of valid
deltas. -/
theorem claim_C7_counterexample :
    (openAIStreamCore cexC7Parse "m" cexC7Up).text = "hello" ∧
    (decodeFrames [] cexC7Up.chunks).1.filterMap (openAIDelta cexC7Parse) = [] ∧
    ("hello" : String) ≠ strConcat [] := by
  refine ⟨rfl, rfl, by decide⟩

/-- Claim C7 (amended): a frame that fails JSON parsing is skipped without
aborting the decode of later frames, and the accumulated text equals the
concatenation, in arrival order, of the text deltas of the valid frames
only — unconditionally for the Gemini adapter, and for the OpenAI adapter
provided no valid `response.completed` frame carries a non-empty
`output_text` (such a frame injects its `output_text` when the accumulated
text is still empty). -/
theorem claim_C7_malformed_frames (parse : String → Option Json) (model : String)
    (up : Upstream) (flushMs : ℚ)
    (h : ∀ q ∈ (decodeFrames [] up.chunks).1, openAICompletedInject parse q = none) :
    (openAIStreamCore parse model up).text
        = strConcat ((decodeFrames [] up.chunks).1.filterMap (openAIDelta parse)) ∧
    (geminiFlush parse model flushMs (geminiStreamCore parse model up)).text
        = strConcat (((decodeFrames [] up.chunks).1
            ++ flushPayloads (decodeFrames [] up.chunks).2).filterMap
            (geminiDelta parse)) := by
  constructor
  · rw [(openAIStreamCore_sim parse model up).1, openAITextStep_concat parse _ "" h,
      strEmpty_append]
  · rw [(geminiDecode_sim parse model up flushMs).1, geminiTextStep_concat,
      strEmpty_append]

/-- Claim C7, witness: the amended theorem applied at a concrete stream,
with the no-injection hypothesis discharged by computation. -/
theorem claim_C7_witness :
    (∀ q ∈ (decodeFrames [] witC7Up.chunks).1, openAICompletedInject witC7Parse q = none) ∧
    ((openAIStreamCore witC7Parse "m" witC7Up).text
        = strConcat ((decodeFrames [] witC7Up.chunks).1.filterMap (openAIDelta witC7Parse)) ∧
     (geminiFlush witC7Parse "m" 0 (geminiStreamCore witC7Parse "m" witC7Up)).text
        = strConcat (((decodeFrames [] witC7Up.chunks).1
            ++ flushPayloads (decodeFrames [] witC7Up.chunks).2).filterMap
            (geminiDelta witC7Parse))) :=
  ⟨by decide, claim_C7_malformed_frames witC7Parse "m" witC7Up 0 (by decide)⟩

/-! ## Claim C4: the non-streaming fallback -/


theorem dropWhile_append_singleton (p : Char → Bool) :
    ∀ (xs : List Char) (c : Char),
      (xs ++ [c]).dropWhile p
        = if (xs.dropWhile p).isEmpty then (if p c then [] else [c])
          else xs.dropWhile p ++ [c] := by
  intro xs
  induction xs with
  | nil =>
    intro c
    cases hpc : p c <;> simp [List.dropWhile, hpc]
  | cons x rest ih =>
    intro c
    by_cases hx : p x = true
    · simp [List.dropWhile_cons, hx, ih]
    · simp [List.dropWhile_cons, hx]

theorem headOk_dropWhile (p : Char → Bool) : ∀ l : List Char, headOk p (l.dropWhile p) := by
  intro l
  induction l with
  | nil => trivial
  | cons c rest ih =>
    by_cases hc : p c = true
    · simpa [List.dropWhile_cons, hc] using ih
    · simp only [List.dropWhile_cons]
      simp only [Bool.not_eq_true] at hc
      simp [hc, headOk]

theorem dropWhile_of_headOk (p : Char → Bool) (l : List Char) (h : headOk p l) :
    l.dropWhile p = l := by
  cases l with
  | nil => rfl
  | cons c rest =>
    simp only [headOk] at h
    simp [List.dropWhile_cons, h]

theorem backTrim_cons (p : Char → Bool) (c : Char) (t : List Char) :
    backTrim p (c :: t)
      = if backTrim p t = [] then (if p c then [] else [c])
        else c :: backTrim p t := by
  unfold backTrim
  rw [List.reverse_cons, dropWhile_append_singleton]
  by_cases he : t.reverse.dropWhile p = []
  · by_cases hc : p c = true <;> simp [he, hc]
  · simp [he, List.reverse_append]

theorem headOk_backTrim (p : Char → Bool) (l : List Char) (h : headOk p l) :
    headOk p (backTrim p l) := by
  cases l with
  | nil => trivial
  | cons c t =>
    simp only [headOk] at h
    rw [backTrim_cons]
    by_cases he : backTrim p t = []
    · simp [he, h, headOk]
    · simp [he, headOk, h]

theorem backTrim_tailOk (p : Char → Bool) (l : List Char) :
    headOk p (backTrim p l).reverse := by
  unfold backTrim
  rw [List.reverse_reverse]
  exact headOk_dropWhile p l.reverse

theorem backTrim_of_tailOk (p : Char → Bool) (l : List Char)
    (h : headOk p l.reverse) : backTrim p l = l := by
  unfold backTrim
  rw [dropWhile_of_headOk p l.reverse h, List.reverse_reverse]

/-- `jsTrim` as a list operation. -/
theorem jsTrim_data (s : String) :
    jsTrim s = ⟨backTrim jsWhitespace (s.data.dropWhile jsWhitespace)⟩ := rfl

theorem jsTrim_idem (s : String) : jsTrim (jsTrim s) = jsTrim s := by
  rw [jsTrim_data s, jsTrim_data ⟨backTrim jsWhitespace (s.data.dropWhile jsWhitespace)⟩]
  have h1 : headOk jsWhitespace (backTrim jsWhitespace
      (s.data.dropWhile jsWhitespace)) :=
    headOk_backTrim jsWhitespace _ (headOk_dropWhile jsWhitespace s.data)
  rw [show (String.mk (backTrim jsWhitespace (s.data.dropWhile jsWhitespace))).data
      = backTrim jsWhitespace (s.data.dropWhile jsWhitespace) from rfl]
  rw [dropWhile_of_headOk jsWhitespace _ h1]
  rw [backTrim_of_tailOk jsWhitespace _ (backTrim_tailOk jsWhitespace _)]

theorem callGeminiNonStreaming_text_trimmed (fup : FallbackUpstream) :
    jsTrim (callGeminiNonStreaming fup).text = (callGeminiNonStreaming fup).text := by
  unfold callGeminiNonStreaming
  split
  · show jsTrim "" = ""
    rfl
  · exact jsTrim_idem _

/-- Claim C4 (amended): when the accumulated streamed text is empty or
whitespace-only, `callGemini` issues exactly one non-streaming request with
the same JSON payload (`httpRequests = 2`, `fallbackRequest` equals the
original request body); when the fallback yields text, that text is
adopted, its usage and finish reason are adopted when present (streamed
values are retained otherwise via `??`), `metrics.streamingEnabled` is set
to false, and the TTFT and first-token timings are not re-measured — the
metrics are computed from the streaming phase's `firstChunkMs` and
`firstTokenMs` unchanged, which may be non-null (e.g. after a
whitespace-only delta).  The outcome's text equals the fallback text. -/
theorem claim_C4_fallback (parse : String → Option Json) (env : Env)
    (model prompt thinkingMode : String) (up : Upstream) (flushMs totalMs : ℚ)
    (fup : FallbackUpstream) (k : String)
    (hk : envTruthy env.GEMINI_API_KEY = some k)
    (hok : up.ok = true) (hbody : up.hasBody = true)
    (hempty : jsTrim (geminiFlush parse model flushMs (geminiStreamCore parse model up)).text = "")
    (hfb : (callGeminiNonStreaming fup).text ≠ "") :
    callGemini parse env model prompt thinkingMode up flushMs totalMs fup
      = { progress := (geminiFlush parse model flushMs (geminiStreamCore parse model up)).progress
            ++ [mkProgress "gemini" model "completed" (round2 totalMs) "Antwort vollständig"],
          httpRequests := 2,
          fallbackRequest := some (geminiRequestBody prompt (getGeminiThinkingBudget thinkingMode)),
          result := .ok
            { text := jsOrStr (jsTrim (callGeminiNonStreaming fup).text) "[No text returned]",
              metrics := geminiMetricsOf
                (jsCoalesce (callGeminiNonStreaming fup).usage
                  (geminiFlush parse model flushMs (geminiStreamCore parse model up)).usage)
                (geminiFlush parse model flushMs (geminiStreamCore parse model up)).firstChunkMs
                (geminiFlush parse model flushMs (geminiStreamCore parse model up)).firstTokenMs
                totalMs
                (callGeminiNonStreaming fup).text
                (jsCoalesce (callGeminiNonStreaming fup).finishReason
                  (geminiFlush parse model flushMs (geminiStreamCore parse model up)).finishReason)
                (getGeminiThinkingBudget thinkingMode)
                false } } ∧
    (∀ r : CallResult,
      (callGemini parse env model prompt thinkingMode up flushMs totalMs fup).result = .ok r
      → r.text = (callGeminiNonStreaming fup).text) := by
  have hfbb : ((callGeminiNonStreaming fup).text != "") = true := by
    simpa [bne_iff_ne] using hfb
  have hemptyb : (jsTrim (geminiFlush parse model flushMs
      (geminiStreamCore parse model up)).text == "") = true := by
    simpa using hempty
  have hmain : callGemini parse env model prompt thinkingMode up flushMs totalMs fup
      = { progress := (geminiFlush parse model flushMs (geminiStreamCore parse model up)).progress
            ++ [mkProgress "gemini" model "completed" (round2 totalMs) "Antwort vollständig"],
          httpRequests := 2,
          fallbackRequest := some (geminiRequestBody prompt (getGeminiThinkingBudget thinkingMode)),
          result := .ok
            { text := jsOrStr (jsTrim (callGeminiNonStreaming fup).text) "[No text returned]",
              metrics := geminiMetricsOf
                (jsCoalesce (callGeminiNonStreaming fup).usage
                  (geminiFlush parse model flushMs (geminiStreamCore parse model up)).usage)
                (geminiFlush parse model flushMs (geminiStreamCore parse model up)).firstChunkMs
                (geminiFlush parse model flushMs (geminiStreamCore parse model up)).firstTokenMs
                totalMs
                (callGeminiNonStreaming fup).text
                (jsCoalesce (callGeminiNonStreaming fup).finishReason
                  (geminiFlush parse model flushMs (geminiStreamCore parse model up)).finishReason)
                (getGeminiThinkingBudget thinkingMode)
                false } } := by
    simp only [callGemini, hk, hok, hbody, Bool.and_self, if_true, hemptyb, hfbb,
      Bool.true_and, Bool.not_true, if_false, Bool.false_eq_true]
  refine ⟨hmain, ?_⟩
  intro r hr
  rw [hmain] at hr
  simp only [Except.ok.injEq] at hr
  subst hr
  show jsOrStr (jsTrim (callGeminiNonStreaming fup).text) "[No text returned]"
    = (callGeminiNonStreaming fup).text
  rw [callGeminiNonStreaming_text_trimmed]
  unfold jsOrStr
  rw [if_neg hfb]

/-- Claim C4, counterexample: a streaming phase that delivered only a
whitespace delta (at 5 ms) followed by a successful fallback produces an
outcome with `streamingEnabled = false` and the fallback text, but its
first-token timing is `some (round2 5)`, not null — the claim's "they
remain null" is false; the timings are simply not re-measured. -/
theorem claim_C4_counterexample :
    (match cexC4Run.result with
     | .ok r => r.metrics.streamingEnabled
     | .error _ => true) = false ∧
    (match cexC4Run.result with
     | .ok r => r.text
     | .error e => e) = "hi" ∧
    (match cexC4Run.result with
     | .ok r => r.metrics.firstTokenMs
     | .error _ => none) = some (round2 5) ∧
    some (round2 5) ≠ (none : Option ℚ) := by
  refine ⟨rfl, rfl, rfl, by simp⟩

/-- Claim C4, witness: the amended theorem applied at a concrete input (an
empty stream plus a fallback carrying text), discharging every
hypothesis by computation. -/
theorem claim_C4_witness :
    (envTruthy geminiOnlyEnv.GEMINI_API_KEY = some "gk" ∧
     witC4Up.ok = true ∧ witC4Up.hasBody = true ∧
     jsTrim (geminiFlush parseNone "m" 0 (geminiStreamCore parseNone "m" witC4Up)).text
       = "" ∧
     (callGeminiNonStreaming cexC4Fup).text ≠ "") ∧
    (callGemini parseNone geminiOnlyEnv "m" "p" "off" witC4Up 0 0 cexC4Fup
      = { progress := (geminiFlush parseNone "m" 0 (geminiStreamCore parseNone "m" witC4Up)).progress
            ++ [mkProgress "gemini" "m" "completed" (round2 0) "Antwort vollständig"],
          httpRequests := 2,
          fallbackRequest := some (geminiRequestBody "p" (getGeminiThinkingBudget "off")),
          result := .ok
            { text := jsOrStr (jsTrim (callGeminiNonStreaming cexC4Fup).text) "[No text returned]",
              metrics := geminiMetricsOf
                (jsCoalesce (callGeminiNonStreaming cexC4Fup).usage
                  (geminiFlush parseNone "m" 0 (geminiStreamCore parseNone "m" witC4Up)).usage)
                (geminiFlush parseNone "m" 0 (geminiStreamCore parseNone "m" witC4Up)).firstChunkMs
                (geminiFlush parseNone "m" 0 (geminiStreamCore parseNone "m" witC4Up)).firstTokenMs
                0
                (callGeminiNonStreaming cexC4Fup).text
                (jsCoalesce (callGeminiNonStreaming cexC4Fup).finishReason
                  (geminiFlush parseNone "m" 0 (geminiStreamCore parseNone "m" witC4Up)).finishReason)
                (getGeminiThinkingBudget "off")
                false } } ∧
     (∀ r : CallResult,
        (callGemini parseNone geminiOnlyEnv "m" "p" "off" witC4Up 0 0 cexC4Fup).result = .ok r
        → r.text = (callGeminiNonStreaming cexC4Fup).text)) :=
  ⟨⟨rfl, rfl, rfl, by decide, by decide⟩,
   claim_C4_fallback parseNone geminiOnlyEnv "m" "p" "off" witC4Up 0 0 cexC4Fup "gk"
     rfl rfl rfl (by decide) (by decide)⟩

/-! ## Claim C6: milestone timing provenance -/


theorem round2_mono {a b : ℚ} (h : a ≤ b) : round2 a ≤ round2 b := by
  unfold round2
  have h2 : round (a * 100) ≤ round (b * 100) := by
    rw [round_eq, round_eq]
    exact Int.floor_le_floor (by linarith)
  have h3 : ((round (a * 100) : ℤ) : ℚ) ≤ ((round (b * 100) : ℤ) : ℚ) :=
    Int.cast_le.mpr h2
  linarith

theorem foldl_const {α β : Type} (l : List β) (x : α) :
    l.foldl (fun a _ => a) x = x := by
  induction l generalizing x with
  | nil => rfl
  | cons b rest ih => exact ih x

theorem openAIDeltaPart_fc (model : String) (e : ℚ) (ev : Json) (st : StreamAcc) :
    (openAIDeltaPart model e ev st).firstChunkMs = st.firstChunkMs := by
  unfold openAIDeltaPart
  split
  · split <;> rfl
  · rfl

theorem openAIItemDonePart_fc (ev : Json) (st : StreamAcc) :
    (openAIItemDonePart ev st).firstChunkMs = st.firstChunkMs := by
  unfold openAIItemDonePart
  split
  · split
    · split <;> rfl
    · rfl
  · rfl

theorem openAICompletedPart_fc (ev : Json) (st : StreamAcc) :
    (openAICompletedPart ev st).firstChunkMs = st.firstChunkMs := by
  unfold openAICompletedPart
  split
  · dsimp only
    split
    · split <;> rfl
    · rfl
  · rfl

theorem openAIPayloadStep_fc (parse : String → Option Json) (model : String) (e : ℚ)
    (st : StreamAcc) (p : String) :
    (openAIPayloadStep parse model e st p).firstChunkMs = st.firstChunkMs := by
  unfold openAIPayloadStep
  split
  · rfl
  · cases hp : parse p with
    | none => rfl
    | some ev =>
      simp only [openAICompletedPart_fc, openAIItemDonePart_fc, openAIDeltaPart_fc]

theorem openAIItemDonePart_ft (ev : Json) (st : StreamAcc) :
    (openAIItemDonePart ev st).firstTokenMs = st.firstTokenMs := by
  unfold openAIItemDonePart
  split
  · split
    · split <;> rfl
    · rfl
  · rfl

theorem openAICompletedPart_ft (ev : Json) (st : StreamAcc) :
    (openAICompletedPart ev st).firstTokenMs = st.firstTokenMs := by
  unfold openAICompletedPart
  split
  · dsimp only
    split
    · split <;> rfl
    · rfl
  · rfl

theorem openAIDeltaPart_ft (model : String) (e : ℚ) (ev : Json) (st : StreamAcc) :
    (openAIDeltaPart model e ev st).firstTokenMs = st.firstTokenMs ∨
      (openAIDeltaPart model e ev st).firstTokenMs = some e := by
  unfold openAIDeltaPart
  split
  · split
    · exact Or.inr rfl
    · exact Or.inl rfl
  · exact Or.inl rfl

theorem openAIPayloadStep_ft (parse : String → Option Json) (model : String) (e : ℚ)
    (st : StreamAcc) (p : String) :
    (openAIPayloadStep parse model e st p).firstTokenMs = st.firstTokenMs ∨
      (openAIPayloadStep parse model e st p).firstTokenMs = some e := by
  unfold openAIPayloadStep
  split
  · exact Or.inl rfl
  · cases hp : parse p with
    | none => exact Or.inl rfl
    | some ev =>
      rw [openAICompletedPart_ft, openAIItemDonePart_ft]
      exact openAIDeltaPart_ft model e ev st

theorem geminiDeltaPart_fc (model : String) (e : ℚ) (ev : Json) (st : StreamAcc) :
    (geminiDeltaPart model e ev st).firstChunkMs = st.firstChunkMs := by
  unfold geminiDeltaPart
  by_cases hc : (geminiChunkTextOf ev != "") = true
  · simp only [hc, if_true]
    split <;> rfl
  · simp [hc]

theorem geminiUsagePart_fc (ev : Json) (st : StreamAcc) :
    (geminiUsagePart ev st).firstChunkMs = st.firstChunkMs := by
  unfold geminiUsagePart
  split
  · split <;> rfl
  · rfl

theorem geminiFinishPart_fc (ev : Json) (st : StreamAcc) :
    (geminiFinishPart ev st).firstChunkMs = st.firstChunkMs := by
  unfold geminiFinishPart
  split
  · split <;> rfl
  · rfl

theorem geminiPayloadStep_fc (parse : String → Option Json) (model : String) (e : ℚ)
    (st : StreamAcc) (p : String) :
    (geminiPayloadStep parse model e st p).firstChunkMs = st.firstChunkMs := by
  unfold geminiPayloadStep
  split
  · rfl
  · cases hp : parse p with
    | none => rfl
    | some ev =>
      simp only [geminiFinishPart_fc, geminiUsagePart_fc, geminiDeltaPart_fc]

theorem geminiUsagePart_ft (ev : Json) (st : StreamAcc) :
    (geminiUsagePart ev st).firstTokenMs = st.firstTokenMs := by
  unfold geminiUsagePart
  split
  · split <;> rfl
  · rfl

theorem geminiFinishPart_ft (ev : Json) (st : StreamAcc) :
    (geminiFinishPart ev st).firstTokenMs = st.firstTokenMs := by
  unfold geminiFinishPart
  split
  · split <;> rfl
  · rfl

theorem geminiDeltaPart_ft (model : String) (e : ℚ) (ev : Json) (st : StreamAcc) :
    (geminiDeltaPart model e ev st).firstTokenMs = st.firstTokenMs ∨
      (geminiDeltaPart model e ev st).firstTokenMs = some e := by
  unfold geminiDeltaPart
  by_cases hc : (geminiChunkTextOf ev != "") = true
  · simp only [hc, if_true]
    split
    · exact Or.inr rfl
    · exact Or.inl rfl
  · simp [hc]

theorem geminiPayloadStep_ft (parse : String → Option Json) (model : String) (e : ℚ)
    (st : StreamAcc) (p : String) :
    (geminiPayloadStep parse model e st p).firstTokenMs = st.firstTokenMs ∨
      (geminiPayloadStep parse model e st p).firstTokenMs = some e := by
  unfold geminiPayloadStep
  split
  · exact Or.inl rfl
  · cases hp : parse p with
    | none => exact Or.inl rfl
    | some ev =>
      rw [geminiFinishPart_ft, geminiUsagePart_ft]
      exact geminiDeltaPart_ft model e ev st

theorem payloadFold_fc (step : ℚ → StreamAcc → String → StreamAcc)
    (hfc : ∀ e st p, (step e st p).firstChunkMs = st.firstChunkMs) (e : ℚ) :
    ∀ (ps : List String) (st : StreamAcc),
      (ps.foldl (step e) st).firstChunkMs = st.firstChunkMs := by
  intro ps
  induction ps with
  | nil => intro st; rfl
  | cons p rest ih =>
    intro st
    rw [List.foldl_cons, ih, hfc]

theorem payloadFold_ft (step : ℚ → StreamAcc → String → StreamAcc)
    (hft : ∀ e st p, (step e st p).firstTokenMs = st.firstTokenMs ∨
      (step e st p).firstTokenMs = some e) (e : ℚ) :
    ∀ (ps : List String) (st : StreamAcc),
      (ps.foldl (step e) st).firstTokenMs = st.firstTokenMs ∨
        (ps.foldl (step e) st).firstTokenMs = some e := by
  intro ps
  induction ps with
  | nil => intro st; exact Or.inl rfl
  | cons p rest ih =>
    intro st
    rw [List.foldl_cons]
    rcases ih (step e st p) with h | h
    · rw [h]
      exact hft e st p
    · exact Or.inr h

theorem partsFold_fc (step : ℚ → StreamAcc → String → StreamAcc)
    (hfc : ∀ e st p, (step e st p).firstChunkMs = st.firstChunkMs) (e : ℚ) :
    ∀ (parts : List (List Char)) (st : StreamAcc),
      (parts.foldl (fun s part => (dataPayloads part).foldl (step e) s) st).firstChunkMs
        = st.firstChunkMs := by
  intro parts
  induction parts with
  | nil => intro st; rfl
  | cons part rest ih =>
    intro st
    rw [List.foldl_cons, ih, payloadFold_fc step hfc]

theorem partsFold_ft (step : ℚ → StreamAcc → String → StreamAcc)
    (hft : ∀ e st p, (step e st p).firstTokenMs = st.firstTokenMs ∨
      (step e st p).firstTokenMs = some e) (e : ℚ) :
    ∀ (parts : List (List Char)) (st : StreamAcc),
      (parts.foldl (fun s part => (dataPayloads part).foldl (step e) s) st).firstTokenMs
          = st.firstTokenMs ∨
        (parts.foldl (fun s part => (dataPayloads part).foldl (step e) s) st).firstTokenMs
          = some e := by
  intro parts
  induction parts with
  | nil => intro st; exact Or.inl rfl
  | cons part rest ih =>
    intro st
    rw [List.foldl_cons]
    rcases ih ((dataPayloads part).foldl (step e) st) with h | h
    · rw [h]
      exact payloadFold_ft step hft e _ st
    · exact Or.inr h

theorem connectedUpdate_fc (pv md : String) (st : StreamAcc) (ch : Chunk) :
    (connectedUpdate pv md st ch).firstChunkMs
      = match st.firstChunkMs with
        | some x => some x
        | none => some ch.elapsed := by
  unfold connectedUpdate
  cases hfc : st.firstChunkMs with
  | none => simp [hfc, Option.isNone]
  | some x => simp [hfc, Option.isNone]

theorem connectedUpdate_ft (pv md : String) (st : StreamAcc) (ch : Chunk) :
    (connectedUpdate pv md st ch).firstTokenMs = st.firstTokenMs := by
  unfold connectedUpdate
  split <;> rfl

theorem chunkStep_fc (pv md : String) (step : ℚ → StreamAcc → String → StreamAcc)
    (hfc : ∀ e st p, (step e st p).firstChunkMs = st.firstChunkMs)
    (st : StreamAcc) (ch : Chunk) :
    (chunkStep pv md step st ch).firstChunkMs
      = match st.firstChunkMs with
        | some x => some x
        | none => some ch.elapsed := by
  unfold chunkStep
  rw [partsFold_fc step hfc]
  show (connectedUpdate pv md st ch).firstChunkMs = _
  exact connectedUpdate_fc pv md st ch

theorem chunkStep_ft (pv md : String) (step : ℚ → StreamAcc → String → StreamAcc)
    (hft : ∀ e st p, (step e st p).firstTokenMs = st.firstTokenMs ∨
      (step e st p).firstTokenMs = some e)
    (st : StreamAcc) (ch : Chunk) :
    (chunkStep pv md step st ch).firstTokenMs = st.firstTokenMs ∨
      (chunkStep pv md step st ch).firstTokenMs = some ch.elapsed := by
  unfold chunkStep
  rcases partsFold_ft step hft ch.elapsed
      (splitFull ((connectedUpdate pv md st ch).buffer ++ ch.data.data)).dropLast
      { connectedUpdate pv md st ch with
          buffer := (splitFull ((connectedUpdate pv md st ch).buffer
            ++ ch.data.data)).getLastD [] } with h | h
  · rw [h]
    show (connectedUpdate pv md st ch).firstTokenMs = st.firstTokenMs ∨ _
    exact Or.inl (connectedUpdate_ft pv md st ch)
  · exact Or.inr h

theorem chunkFold_first (pv md : String) (step : ℚ → StreamAcc → String → StreamAcc)
    (hfc : ∀ e st p, (step e st p).firstChunkMs = st.firstChunkMs)
    (hft : ∀ e st p, (step e st p).firstTokenMs = st.firstTokenMs ∨
      (step e st p).firstTokenMs = some e) :
    ∀ (chunks : List Chunk) (st : StreamAcc),
      ((chunks.foldl (chunkStep pv md step) st).firstChunkMs
        = match st.firstChunkMs with
          | some x => some x
          | none => chunks.head?.map Chunk.elapsed) ∧
      (∀ t, (chunks.foldl (chunkStep pv md step) st).firstTokenMs = some t →
        st.firstTokenMs = some t ∨ ∃ c ∈ chunks, t = c.elapsed) := by
  intro chunks
  induction chunks with
  | nil =>
    intro st
    refine ⟨?_, fun t ht => Or.inl ht⟩
    show st.firstChunkMs = match st.firstChunkMs with
      | some x => some x
      | none => Option.map Chunk.elapsed ([] : List Chunk).head?
    cases st.firstChunkMs <;> rfl
  | cons ch rest ih =>
    intro st
    obtain ⟨ihf, iht⟩ := ih (chunkStep pv md step st ch)
    constructor
    · rw [List.foldl_cons, ihf, chunkStep_fc pv md step hfc]
      cases st.firstChunkMs <;> rfl
    · intro t ht
      rw [List.foldl_cons] at ht
      rcases iht t ht with h | ⟨c, hc, hce⟩
      · rcases chunkStep_ft pv md step hft st ch with h2 | h2
        · rw [h2] at h
          exact Or.inl h
        · rw [h2] at h
          injection h with h3
          exact Or.inr ⟨ch, by simp, h3.symm⟩
      · exact Or.inr ⟨c, List.mem_cons_of_mem _ hc, hce⟩

theorem geminiFlush_fc (parse : String → Option Json) (model : String) (flushMs : ℚ)
    (st : StreamAcc) :
    (geminiFlush parse model flushMs st).firstChunkMs = st.firstChunkMs := by
  unfold geminiFlush
  exact payloadFold_fc (geminiPayloadStep parse model) (geminiPayloadStep_fc parse model)
    flushMs _ st

theorem geminiFlush_ft (parse : String → Option Json) (model : String) (flushMs : ℚ)
    (st : StreamAcc) :
    (geminiFlush parse model flushMs st).firstTokenMs = st.firstTokenMs ∨
      (geminiFlush parse model flushMs st).firstTokenMs = some flushMs := by
  unfold geminiFlush
  exact payloadFold_ft (geminiPayloadStep parse model) (geminiPayloadStep_ft parse model)
    flushMs _ st

theorem metricsOrder_of_prov (fc ft : Option ℚ) (totalMs : ℚ)
    (hfcft : ∀ va vb, fc = some va → ft = some vb → va ≤ vb)
    (hftb : ∀ vb, ft = some vb → vb ≤ totalMs) :
    ∀ a b, truthyMap fc round2 = some a → truthyMap ft round2 = some b →
      a ≤ b ∧ b ≤ round2 totalMs := by
  intro a b ha hb
  cases hfc : fc with
  | none => rw [hfc] at ha; simp [truthyMap] at ha
  | some va =>
    rw [hfc] at ha
    by_cases hva : va = 0
    · simp [truthyMap, hva] at ha
    · simp only [truthyMap, if_neg hva] at ha
      cases hft : ft with
      | none => rw [hft] at hb; simp [truthyMap] at hb
      | some vb =>
        rw [hft] at hb
        by_cases hvb : vb = 0
        · simp [truthyMap, hvb] at hb
        · simp only [truthyMap, if_neg hvb] at hb
          injection ha with ha
          injection hb with hb
          subst ha
          subst hb
          exact ⟨round2_mono (hfcft va vb hfc hft), round2_mono (hftb vb hft)⟩

/-- Claim C6 (confirmed): under the monotone-clock model (chunk arrival
times are nondecreasing and bounded by the flush and completion readings),
every successful outcome of the OpenAI and Gemini adapters has monotone
milestones: `completed` (totalLatencyMs) is always recorded, and whenever
`ttftMs` (connected) and `firstTokenMs` are both non-null,
`ttftMs ≤ firstTokenMs ≤ totalLatencyMs`.  `firstTokenMs` stays an
`Option` — it is null when no visible text ever arrived — while
`totalLatencyMs` is recorded unconditionally. -/
theorem claim_C6_milestones (parse : String → Option Json) (env : Env)
    (model prompt thinkingMode : String) (up : Upstream) (flushMs totalMs : ℚ)
    (fup : FallbackUpstream)
    (hpair : up.chunks.Pairwise (fun a b => a.elapsed ≤ b.elapsed))
    (hbound : ∀ c ∈ up.chunks, c.elapsed ≤ totalMs)
    (hboundg : ∀ c ∈ up.chunks, c.elapsed ≤ flushMs)
    (hflushle : flushMs ≤ totalMs) :
    (∀ r : CallResult,
      (callOpenAI parse env model thinkingMode up totalMs).result = .ok r →
      r.metrics.totalLatencyMs = round2 totalMs ∧
      (∀ a b, r.metrics.ttftMs = some a → r.metrics.firstTokenMs = some b →
        a ≤ b ∧ b ≤ r.metrics.totalLatencyMs)) ∧
    (∀ r : CallResult,
      (callGemini parse env model prompt thinkingMode up flushMs totalMs fup).result
        = .ok r →
      r.metrics.totalLatencyMs = round2 totalMs ∧
      (∀ a b, r.metrics.ttftMs = some a → r.metrics.firstTokenMs = some b →
        a ≤ b ∧ b ≤ r.metrics.totalLatencyMs)) := by
  have hosim := chunkFold_first "openai" model (openAIPayloadStep parse model)
    (openAIPayloadStep_fc parse model) (openAIPayloadStep_ft parse model) up.chunks initAcc
  have hofc : (openAIStreamCore parse model up).firstChunkMs
      = up.chunks.head?.map Chunk.elapsed := hosim.1
  have hoft : ∀ t, (openAIStreamCore parse model up).firstTokenMs = some t →
      ∃ c ∈ up.chunks, t = c.elapsed := by
    intro t ht
    rcases hosim.2 t ht with h | h
    · exact absurd h (by simp [initAcc])
    · exact h
  have hfcft_core : ∀ (fc ft : Option ℚ),
      fc = up.chunks.head?.map Chunk.elapsed →
      (∀ t, ft = some t → ∃ c ∈ up.chunks, t = c.elapsed) →
      ∀ va vb, fc = some va → ft = some vb → va ≤ vb := by
    intro fc ft hfc hprov va vb hva hvb
    rw [hfc] at hva
    cases hchunks : up.chunks with
    | nil => rw [hchunks] at hva; simp at hva
    | cons c0 rest =>
      rw [hchunks] at hva
      simp only [List.head?_cons, Option.map_some] at hva
      injection hva with hva
      obtain ⟨c, hcmem, hce⟩ := hprov vb hvb
      rw [hchunks] at hcmem
      rcases List.mem_cons.mp hcmem with h | h
      · subst h
        rw [← hva, hce]
      · have := (List.pairwise_cons.mp (hchunks ▸ hpair)).1 c h
        rw [← hva, hce]
        exact this
  constructor
  · intro r hr
    cases hk : envTruthy env.OPENAI_API_KEY with
    | none => simp [callOpenAI, hk] at hr
    | some k =>
      by_cases hok2 : (up.ok && up.hasBody) = true
      · simp only [callOpenAI, hk, hok2, if_true, Except.ok.injEq] at hr
        subst hr
        refine ⟨rfl, ?_⟩
        simp only [openAIMetricsOf]
        refine metricsOrder_of_prov _ _ _ ?_ ?_
        · exact hfcft_core _ _ hofc hoft
        · intro vb hvb
          obtain ⟨c, hcmem, hce⟩ := hoft vb hvb
          rw [hce]
          exact hbound c hcmem
      · simp [callOpenAI, hk, hok2] at hr
  · intro r hr
    have hgsim := chunkFold_first "gemini" model (geminiPayloadStep parse model)
      (geminiPayloadStep_fc parse model) (geminiPayloadStep_ft parse model)
      up.chunks initAcc
    have hgfc : (geminiFlush parse model flushMs
        (geminiStreamCore parse model up)).firstChunkMs
        = up.chunks.head?.map Chunk.elapsed := by
      rw [geminiFlush_fc]
      exact hgsim.1
    have hgft : ∀ t, (geminiFlush parse model flushMs
        (geminiStreamCore parse model up)).firstTokenMs = some t →
        (∃ c ∈ up.chunks, t = c.elapsed) ∨ t = flushMs := by
      intro t ht
      rcases geminiFlush_ft parse model flushMs (geminiStreamCore parse model up)
          with h | h
      · rw [h] at ht
        rcases hgsim.2 t ht with h2 | h2
        · exact absurd h2 (by simp [initAcc])
        · exact Or.inl h2
      · rw [h] at ht
        injection ht with ht
        exact Or.inr ht.symm
    cases hk : envTruthy env.GEMINI_API_KEY with
    | none => simp [callGemini, hk] at hr
    | some k =>
      by_cases hok2 : (up.ok && up.hasBody) = true
      · simp only [callGemini, hk, hok2, if_true, Except.ok.injEq] at hr
        subst hr
        refine ⟨rfl, ?_⟩
        simp only [geminiMetricsOf]
        refine metricsOrder_of_prov _ _ _ ?_ ?_
        · intro va vb hva hvb
          rw [hgfc] at hva
          cases hchunks : up.chunks with
          | nil => rw [hchunks] at hva; simp at hva
          | cons c0 rest =>
            rw [hchunks] at hva
            simp only [List.head?_cons, Option.map_some] at hva
            injection hva with hva
            rcases hgft vb hvb with ⟨c, hcmem, hce⟩ | hce
            · rw [hchunks] at hcmem
              rcases List.mem_cons.mp hcmem with h | h
              · subst h
                rw [← hva, hce]
              · have := (List.pairwise_cons.mp (hchunks ▸ hpair)).1 c h
                rw [← hva, hce]
                exact this
            · rw [← hva, hce]
              exact hboundg c0 (by rw [hchunks]; simp)
        · intro vb hvb
          rcases hgft vb hvb with ⟨c, hcmem, hce⟩ | hce
          · rw [hce]
            exact hbound c hcmem
          · rw [hce]
            exact hflushle
      · simp [callGemini, hk, hok2] at hr

/-- Claim C6, witness: the theorem applied at a concrete monotone stream
(one chunk at 5 ms, flush reading 7 ms, completion reading 10 ms), with
every clock hypothesis discharged by computation. -/
theorem claim_C6_witness :
    (witC6Up.chunks.Pairwise (fun a b => a.elapsed ≤ b.elapsed) ∧
     (∀ c ∈ witC6Up.chunks, c.elapsed ≤ (10 : ℚ)) ∧
     (∀ c ∈ witC6Up.chunks, c.elapsed ≤ (7 : ℚ)) ∧
     (7 : ℚ) ≤ 10) ∧
    ((∀ r : CallResult,
        (callOpenAI parseNone emptyEnv "m" "off" witC6Up 10).result = .ok r →
        r.metrics.totalLatencyMs = round2 10 ∧
        (∀ a b, r.metrics.ttftMs = some a → r.metrics.firstTokenMs = some b →
          a ≤ b ∧ b ≤ r.metrics.totalLatencyMs)) ∧
     (∀ r : CallResult,
        (callGemini parseNone emptyEnv "m" "p" "off" witC6Up 7 10 ⟨false, .null⟩).result
          = .ok r →
        r.metrics.totalLatencyMs = round2 10 ∧
        (∀ a b, r.metrics.ttftMs = some a → r.metrics.firstTokenMs = some b →
          a ≤ b ∧ b ≤ r.metrics.totalLatencyMs))) :=
  ⟨⟨by decide, by decide, by decide, by decide⟩,
   claim_C6_milestones parseNone emptyEnv "m" "p" "off" witC6Up 7 10 ⟨false, .null⟩
     (by decide) (by decide) (by decide) (by decide)⟩

end LLMTest
